import Mathlib

/-! text-scroll: a shallow embedding of `text-scroll.cpp`

The program keeps a rectangular grid of characters (`std::vector<std::string>`)
and, once per frame, rotates it by one cell in the current direction.

Modelling conventions.

* A `std::string` is a `List Char`, the `std::vector<std::string>` is a list of rows.
* The C++ `int` loop counters and the two `int` fields `maxRowIndex`, `maxColIndex`
  are mathematical integers (`Int`).  Every value a counter takes in `Update` lies
  between `-1` and the larger grid dimension, so for dimensions that fit an `int`
  (the map of the program is 23 x 67) no wrap-around is involved.
* Every subscript is checked: an access the C++ standard leaves undefined makes the
  operation return `none`.  Reading a `std::string` at position `size()` is defined
  (it yields the terminating NUL); `strAt` models that, `strAtChecked` refuses it.
* A `for` loop whose body changes neither its counter nor its bound is unrolled by
  `forUp` / `forDown`, given the number of iterations the loop header determines.
* Standard output is the list of characters written so far; `frame.limit()` only
  sleeps and the ncurses set-up calls leave no trace in the state.
-/

namespace TextScroll

/-- The enum `ProgramState` (line 55): the decoded result of one input poll. -/
inductive ProgramState where
  | Continue | Stop | Left | Right | Up | Down
  deriving DecidableEq

/-- The enum `Direction` (line 112). -/
inductive Direction where
  | Up | Right | Down | Left
  deriving DecidableEq

/-- One `std::string` of the map. -/
abbrev Row := List Char

/-- The `std::vector<std::string>` held by `Game`. -/
abbrev Grid := List Row

/-- Read through `std::vector::operator[]`: defined for `0 ≤ i < size()` only. -/
def vecAt {α : Type} (v : List α) (i : Int) : Option α :=
  if 0 ≤ i then v[i.toNat]? else none

/-- Store through `operator[]` (vector element or string character):
defined for `0 ≤ i < size()` only. -/
def vecSet {α : Type} (v : List α) (i : Int) (x : α) : Option (List α) :=
  if 0 ≤ i ∧ i < v.length then some (v.set i.toNat x) else none

/-- Read through `std::string::operator[]` as the C++ standard defines it:
positions `0 ≤ i < size()` give the stored character, position `size()` gives the
terminating NUL character, anything else is undefined. -/
def strAt (s : Row) (i : Int) : Option Char :=
  if 0 ≤ i ∧ i < s.length then s[i.toNat]?
  else if i = s.length then some (Char.ofNat 0)
  else none

/-- Read of a string character with the strict bound `0 ≤ i < size()`:
the position `size()` counts as out of range. -/
def strAtChecked (s : Row) (i : Int) : Option Char :=
  if 0 ≤ i ∧ i < s.length then s[i.toNat]? else none

/-- The expression `map[r][c]` used as a value; `rd` is the string read in force. -/
def cellAt (rd : Row → Int → Option Char) (m : Grid) (r c : Int) : Option Char :=
  (vecAt m r).bind (fun row => rd row c)

/-- The assignment `map[r][c] = x`. -/
def cellSet (m : Grid) (r c : Int) (x : Char) : Option Grid :=
  (vecAt m r).bind (fun row => (vecSet row c x).bind (fun row1 => vecSet m r row1))

/-- Runs `body i`, `body (i+1)`, ... for `n` iterations: the loop
`for (int k = i; k < i + n; k++) body`. -/
def forUp {σ : Type} (body : Int → σ → Option σ) : Nat → Int → σ → Option σ
  | 0, _, s => some s
  | n + 1, i, s => (body i s).bind (forUp body n (i + 1))

/-- Runs `body i`, `body (i-1)`, ... for `n` iterations: the loop
`for (int k = i; k > i - n; k--) body`. -/
def forDown {σ : Type} (body : Int → σ → Option σ) : Nat → Int → σ → Option σ
  | 0, _, s => some s
  | n + 1, i, s => (body i s).bind (forDown body n (i - 1))

/-- The class `Game` (lines 114-218): public `direction`, private `map`,
`maxRowIndex`, `maxColIndex`. -/
structure Game where
  direction : Direction
  map : Grid
  maxRowIndex : Int
  maxColIndex : Int
  deriving DecidableEq

namespace Game

/-- Lines 148-149 of the constructor, for a given non-empty map literal and a given
direction: `maxRowIndex = map.size()-1; maxColIndex = map[0].size()-1`. -/
def ofMap (d : Direction) (m : Grid) : Game :=
  { direction := d
    map := m
    maxRowIndex := (m.length : Int) - 1
    maxColIndex := ((m.headD []).length : Int) - 1 }

/-- `Game::SetDirection` (lines 152-162). -/
def SetDirection (g : Game) (state : ProgramState) : Game :=
  if state = ProgramState.Down then { g with direction := Direction.Down }
  else if state = ProgramState.Right then { g with direction := Direction.Right }
  else if state = ProgramState.Up then { g with direction := Direction.Up }
  else if state = ProgramState.Left then { g with direction := Direction.Left }
  else g

/-- Body of the row loop of `case Direction::Down`: `map[r] = map[r-1]`. -/
def downBody (r : Int) (m : Grid) : Option Grid :=
  (vecAt m (r - 1)).bind (fun x => vecSet m r x)

/-- Body of the row loop of `case Direction::Up`: `map[r] = map[r+1]`. -/
def upBody (r : Int) (m : Grid) : Option Grid :=
  (vecAt m (r + 1)).bind (fun x => vecSet m r x)

/-- Body of the column loop of `case Direction::Right`:
`map[r][col] = map[r][col-1]`. -/
def rightColBody (rd : Row → Int → Option Char) (r : Int) (col : Int) (m : Grid) :
    Option Grid :=
  (cellAt rd m r (col - 1)).bind (fun x => cellSet m r col x)

/-- Body of the column loop of `case Direction::Left`:
`map[row][col] = map[row][col+1]`. -/
def leftColBody (rd : Row → Int → Option Char) (row : Int) (col : Int) (m : Grid) :
    Option Grid :=
  (cellAt rd m row (col + 1)).bind (fun x => cellSet m row col x)

/-- Body of the row loop of `case Direction::Right` (lines 187-192). -/
def rightRowBody (rd : Row → Int → Option Char) (maxColIndex : Int) (r : Int) (m : Grid) :
    Option Grid :=
  (cellAt rd m r maxColIndex).bind (fun c =>
    (forDown (rightColBody rd r) maxColIndex.toNat maxColIndex m).bind (fun m1 =>
      cellSet m1 r 0 c))

/-- Body of the row loop of `case Direction::Left` (lines 198-203).  The column
loop runs while `col <= maxColIndex`, that is `maxColIndex + 1` times from `0`. -/
def leftRowBody (rd : Row → Int → Option Char) (maxColIndex : Int) (row : Int) (m : Grid) :
    Option Grid :=
  (cellAt rd m row 0).bind (fun c =>
    (forUp (leftColBody rd row) (maxColIndex + 1).toNat 0 m).bind (fun m1 =>
      cellSet m1 row maxColIndex c))

/-- `Game::Update` (lines 164-207), with the string read `rd` as a parameter. -/
def UpdateWith (rd : Row → Int → Option Char) (g : Game) : Option Game :=
  match g.direction with
  | Direction.Down =>
    (vecAt g.map g.maxRowIndex).bind (fun lastLine =>
      (forDown downBody g.maxRowIndex.toNat g.maxRowIndex g.map).bind (fun m1 =>
        (vecSet m1 0 lastLine).bind (fun m2 => some { g with map := m2 })))
  | Direction.Up =>
    (vecAt g.map 0).bind (fun firstLine =>
      (forUp upBody g.maxRowIndex.toNat 0 g.map).bind (fun m1 =>
        (vecSet m1 g.maxRowIndex firstLine).bind (fun m2 => some { g with map := m2 })))
  | Direction.Right =>
    (forUp (rightRowBody rd g.maxColIndex) (g.maxRowIndex + 1).toNat 0 g.map).bind
      (fun m1 => some { g with map := m1 })
  | Direction.Left =>
    (forUp (leftRowBody rd g.maxColIndex) (g.maxRowIndex + 1).toNat 0 g.map).bind
      (fun m1 => some { g with map := m1 })

/-- `Game::Update` under the C++ semantics of `std::string::operator[]`. -/
def Update (g : Game) : Option Game := UpdateWith strAt g

/-- `Game::Update` with every column subscript held to `0 ≤ i < size()`. -/
def UpdateChecked (g : Game) : Option Game := UpdateWith strAtChecked g

end Game

/-! ## Sequences of calls -/

/-- `Update()` called `n` times in a row, nothing in between. -/
def Game.UpdateN : Nat → Game → Option Game
  | 0, g => some g
  | n + 1, g => (Game.Update g).bind (Game.UpdateN n)

/-- A call made on the game by its driver: `SetDirection(state)` or `Update()`. -/
inductive Op where
  | SetDirection (state : ProgramState)
  | Update
  deriving DecidableEq

/-- A sequence of calls, performed in order. -/
def Game.run : List Op → Game → Option Game
  | [], g => some g
  | Op.SetDirection state :: ops, g => Game.run ops (g.SetDirection state)
  | Op.Update :: ops, g => (Game.Update g).bind (Game.run ops)

/-! ## Constructor, console, input, renderer, main loop -/

/-- The map literal of the constructor `Game::Game` (lines 121-146). -/
def Game.ctorMap : Grid :=
  [
    "                                                                   ".toList,
    "  %            %    %                                %       %     ".toList,
    "  %            %    %                                %       %     ".toList,
    "  %            %    %                                %       %     ".toList,
    "  %            %    %                                %       %     ".toList,
    "  % %%    %%   %    %     %%      %   %   %%   % %   %     %%%     ".toList,
    "  %%  %  %%%%  %    %    %  %     %   %  %  %  %% %  %    %  %     ".toList,
    "  %   %  %     %    %    %  %     % % %  %  %  %     %    %  %     ".toList,
    "  %   %   %%%   %%   %%   %%       % %    %%   %      %%   %%      ".toList,
    "                                                                   ".toList,
    "                                                                   ".toList,
    "                                                                   ".toList,
    "                                                                   ".toList,
    "                                                                   ".toList,
    "                                                                   ".toList,
    "                                                                   ".toList,
    "                                                                   ".toList,
    "                                                                   ".toList,
    "                                                                   ".toList,
    "                                                                   ".toList,
    "                                                                   ".toList,
    "                                                                   ".toList,
    "                                                                   ".toList
  ]

/-- The constructor `Game::Game` (lines 119-150) together with the default member
initialiser `direction{Direction::Right}` (line 117). -/
def Game.ctor : Game := Game.ofMap Direction.Right Game.ctorMap

/-- Everything the program has written to standard output, in order. -/
abbrev Output := List Char

/-- `Console::print` (lines 37-40): the string goes to `std::cout`. -/
def Console.print (out : Output) (str : List Char) : Output :=
  out ++ str

/-- `Console::hideCursor` (lines 17-20). -/
def Console.hideCursor (out : Output) : Output :=
  Console.print out "\x1b[?25l".toList

/-- `Console::showCursor` (lines 22-25). -/
def Console.showCursor (out : Output) : Output :=
  Console.print out "\x1b[?25h".toList

/-- `Console::moveCursor` (lines 27-30); `toString` on `Int` is the decimal form
`std::to_string` gives. -/
def Console.moveCursor (out : Output) (row column : Int) : Output :=
  Console.print out
    ("\x1b[".toList ++ (toString row).toList ++ ";".toList ++ (toString column).toList
      ++ "H".toList)

/-- `Console::clearScreen` (lines 32-35). -/
def Console.clearScreen (out : Output) : Output :=
  Console.print out "\x1b[2J".toList

/-- `Input::handle` (lines 75-93), as a function of the code `c` that `getch()`
returned (`ERR`, a negative number, when no key is waiting). -/
def Input.handle (c : Int) : ProgramState :=
  if c = ('w'.toNat : Int) then ProgramState.Up
  else if c = ('a'.toNat : Int) then ProgramState.Left
  else if c = ('s'.toNat : Int) then ProgramState.Down
  else if c = ('d'.toNat : Int) then ProgramState.Right
  else if c = 27 then ProgramState.Stop
  else ProgramState.Continue

/-- Body of the loop of `Render::Draw` (lines 106-107). -/
def Render.drawBody (map : Grid) (row : Int) (out : Output) : Option Output :=
  (vecAt map row).bind (fun line => some (Console.print (Console.moveCursor out row 0) line))

/-- `Render::Draw` (lines 102-109): the loop runs for `row = 0 .. map.size()-1`. -/
def Render.Draw (out : Output) (map : Grid) : Option Output :=
  forUp (Render.drawBody map) map.length 0 out

/-- The two states of the main loop. -/
inductive LoopState where
  | Running | Stopped
  deriving DecidableEq

/-- The loop `while (1)` of `main` (lines 238-250), driven by the key codes that the
successive `getch()` calls return.  `frame.limit()` only sleeps.  When the codes run
out before `Stop` is decoded the loop is still `Running`. -/
def mainLoop : List Int → Game → Output → Option (LoopState × Game × Output)
  | [], game, out => some (LoopState.Running, game, out)
  | c :: keys, game, out =>
    if Input.handle c = ProgramState.Stop then some (LoopState.Stopped, game, out)
    else
      (Game.Update (game.SetDirection (Input.handle c))).bind (fun game1 =>
        (Render.Draw out game1.map).bind (fun out1 =>
          mainLoop keys game1 out1))

/-- What `main` has printed when it enters the loop (lines 233-234). -/
def startOutput : Output := Console.clearScreen (Console.hideCursor [])

/-- The function `main` (lines 220-255) on the key codes polled: set-up, the loop
from the freshly constructed game, and `showCursor` once the loop has been left. -/
def main (keys : List Int) : Option (LoopState × Game × Output) :=
  (mainLoop keys Game.ctor startOutput).map (fun r =>
    match r with
    | (LoopState.Stopped, game, out) => (LoopState.Stopped, game, Console.showCursor out)
    | (LoopState.Running, game, out) => (LoopState.Running, game, out))

/-- One iteration of the running loop as the specification words it:
`SetDirection(signal)`, then exactly one `Update()`, then one `Draw` of the resulting
grid. -/
def specFrame (signal : ProgramState) (game : Game) (out : Output) : Option (Game × Output) :=
  (Game.run [Op.SetDirection signal, Op.Update] game).bind (fun game1 =>
    (Render.Draw out game1.map).map (fun out1 => (game1, out1)))

/-- The specification's iterations for a sequence of signals, one after the other. -/
def specFrames : List ProgramState → Game → Output → Option (Game × Output)
  | [], game, out => some (game, out)
  | signal :: rest, game, out =>
    (specFrame signal game out).bind (fun r => specFrames rest r.1 r.2)

/-! ## The one-step shift and the repaint, as the specification words them -/

/-- A sequence rotated by one place towards the front: every position takes its
successor's element, the last position receives what was first. -/
def rotLeft1 {α : Type} : List α → List α
  | [] => []
  | a :: l => l ++ [a]

/-- A sequence rotated by one place towards the back: every position takes its
predecessor's element, position `0` receives what was last. -/
def rotRight1 {α : Type} (l : List α) : List α :=
  match l.getLast? with
  | none => []
  | some a => a :: l.dropLast

/-- One shift of the grid in direction `d` as section 4.1 of the specification words
it: Up and Down rotate the sequence of rows, Left and Right rotate every row. -/
def shiftGrid (d : Direction) (m : Grid) : Grid :=
  match d with
  | Direction.Up => rotLeft1 m
  | Direction.Down => rotRight1 m
  | Direction.Left => m.map rotLeft1
  | Direction.Right => m.map rotRight1

/-- An `Update()` in direction `d`: the public field `direction` holds `d` when
`Update()` is called. -/
def Game.UpdateIn (d : Direction) (g : Game) : Option Game :=
  Game.Update { g with direction := d }

/-- The cursor-positioning sequence for row `r`, column `0`:
ESC `[`, the decimal digits of `r`, `;`, `0`, `H`. -/
def cursorSeq (r : Nat) : List Char :=
  [Char.ofNat 27, '['] ++ (Nat.repr r).toList ++ [';', '0', 'H']

/-- The full repaint of the rows `rows`, the first of which is row number `r`: for each
row in order its cursor-positioning sequence, then its text. -/
def repaintFrom : Nat → Grid → List Char
  | _, [] => []
  | r, row :: rest => cursorSeq r ++ row ++ repaintFrom (r + 1) rest

/-! ## Auxiliary definitions for the proofs -/

/-- The statement `v[i] = v[i-1]` on one sequence, reading through `rdf`. -/
def shiftDownBody {α : Type} (rdf : List α → Int → Option α) (i : Int) (v : List α) :
    Option (List α) :=
  (rdf v (i - 1)).bind (fun x => vecSet v i x)

/-- The statement `v[i] = v[i+1]` on one sequence, reading through `rdf`. -/
def shiftUpBody {α : Type} (rdf : List α → Int → Option α) (i : Int) (v : List α) :
    Option (List α) :=
  (rdf v (i + 1)).bind (fun x => vecSet v i x)

/-- A read function that agrees with list lookup at every position below the size. -/
def ReadsInRange {α : Type} (rdf : List α → Int → Option α) : Prop :=
  ∀ (v : List α) (n : Nat), n < v.length → rdf v (n : Int) = v[n]?

/-- The pattern shared by `case Direction::Down` (on the rows of the map) and by
lines 188-191 of `case Direction::Right` (on the characters of one row): save the
element at `maxIndex`, shift right by one place, store the saved element in front. -/
def seqRight {α : Type} (rdf : List α → Int → Option α) (maxIndex : Int) (v : List α) :
    Option (List α) :=
  (rdf v maxIndex).bind (fun c =>
    (forDown (shiftDownBody rdf) maxIndex.toNat maxIndex v).bind (fun w =>
      vecSet w 0 c))

/-- Lines 188-191 seen on the row they touch. -/
def rowRight (rd : Row → Int → Option Char) (maxColIndex : Int) (row : Row) : Option Row :=
  seqRight rd maxColIndex row

/-- Lines 199-202 seen on the row they touch: save the first character, run the
column loop `maxColIndex + 1` times, store the saved character at `maxColIndex`. -/
def rowLeft (rd : Row → Int → Option Char) (maxColIndex : Int) (row : Row) : Option Row :=
  (rd row 0).bind (fun c =>
    (forUp (shiftUpBody rd) (maxColIndex + 1).toNat 0 row).bind (fun w =>
      vecSet w maxColIndex c))

/-- The one-step shift in direction `d` on an `R x C` grid, written with `List.rotate`. -/
def rotGrid (d : Direction) (R C : Nat) (m : Grid) : Grid :=
  match d with
  | Direction.Up => m.rotate 1
  | Direction.Down => m.rotate (R - 1)
  | Direction.Left => m.map (fun row => row.rotate 1)
  | Direction.Right => m.map (fun row => row.rotate (C - 1))

/-- A game over a non-empty rectangle of `R` rows and `C` columns whose two index
fields hold what the constructor stores: `maxRowIndex = R-1`, `maxColIndex = C-1`. -/
structure Game.WF (g : Game) (R C : Nat) : Prop where
  rows : g.map.length = R
  cols : ∀ row ∈ g.map, row.length = C
  nonempty : 1 ≤ R
  maxRow : g.maxRowIndex = (R : Int) - 1
  maxCol : g.maxColIndex = (C : Int) - 1

/-- The character of grid `m` in row `r`, column `c`, if there is one. -/
def charAt (m : Grid) (r c : Nat) : Option Char :=
  (m[r]?).bind (fun row => row[c]?)

/-- A grid of two rows and four columns, `["abcd","efgh"]`. -/
def abcdGrid : Grid := [['a', 'b', 'c', 'd'], ['e', 'f', 'g', 'h']]

/-- The scenario grid `["abc","def","ghi"]`. -/
def abcGrid : Grid := [['a', 'b', 'c'], ['d', 'e', 'f'], ['g', 'h', 'i']]

/-- A grid of two rows and three columns, `["abc","def"]`. -/
def abcdefGrid : Grid := [['a', 'b', 'c'], ['d', 'e', 'f']]

/-! ## Subscripts at natural-number positions -/

theorem vecAt_natCast {α : Type} (v : List α) (n : Nat) : vecAt v (n : Int) = v[n]? := by
  simp [vecAt]

theorem vecSet_natCast {α : Type} (v : List α) (n : Nat) (x : α) (h : n < v.length) :
    vecSet v (n : Int) x = some (v.set n x) := by
  simp [vecSet, h]

theorem strAt_natCast (s : Row) (n : Nat) (h : n < s.length) : strAt s (n : Int) = s[n]? := by
  simp [strAt, h]

theorem strAt_length (s : Row) : strAt s (s.length : Int) = some (Char.ofNat 0) := by
  simp [strAt]

theorem strAtChecked_natCast (s : Row) (n : Nat) (h : n < s.length) :
    strAtChecked s (n : Int) = s[n]? := by
  simp [strAtChecked, h]

theorem strAtChecked_length (s : Row) : strAtChecked s (s.length : Int) = none := by
  simp [strAtChecked]

/-! ## The two shifting loops on a single sequence -/

theorem readsInRange_vecAt {α : Type} : ReadsInRange (vecAt : List α → Int → Option α) :=
  fun v n _ => vecAt_natCast v n

theorem readsInRange_strAt : ReadsInRange strAt := fun s n h => strAt_natCast s n h

theorem readsInRange_strAtChecked : ReadsInRange strAtChecked :=
  fun s n h => strAtChecked_natCast s n h

theorem forDown_shift {α : Type} (rdf : List α → Int → Option α) (hrd : ReadsInRange rdf) :
    ∀ (k : Nat) (v : List α), k < v.length →
      ∃ w, forDown (shiftDownBody rdf) k (k : Int) v = some w ∧ w.length = v.length ∧
        ∀ j : Nat, w[j]? = if 1 ≤ j ∧ j ≤ k then v[j - 1]? else v[j]? := by
  intro k
  induction k with
  | zero =>
    intro v _
    refine ⟨v, rfl, rfl, fun j => ?_⟩
    have hj : ¬ (1 ≤ j ∧ j ≤ 0) := by omega
    rw [if_neg hj]
  | succ k ih =>
    intro v hk
    have h1 : rdf v (k : Int) = some v[k] := by
      rw [hrd v k (by omega), List.getElem?_eq_getElem (by omega)]
    obtain ⟨w, hw, hl, hp⟩ := ih (v.set (k + 1) v[k]) (by simp; omega)
    refine ⟨w, ?_, by simpa using hl, ?_⟩
    · have h2 : ((k + 1 : Nat) : Int) - 1 = (k : Int) := by push_cast; ring
      rw [forDown, shiftDownBody, h2, h1, Option.some_bind, vecSet_natCast _ _ _ hk,
        Option.some_bind]
      exact hw
    · intro j
      rw [hp j]
      by_cases hj : 1 ≤ j ∧ j ≤ k
      · have hj2 : 1 ≤ j ∧ j ≤ k + 1 := by omega
        rw [if_pos hj, if_pos hj2, List.getElem?_set_ne (by omega)]
      · rw [if_neg hj]
        by_cases hj3 : j = k + 1
        · subst hj3
          rw [if_pos (by omega), List.getElem?_set_self hk,
            List.getElem?_eq_getElem (show k + 1 - 1 < v.length by omega)]
          rfl
        · have hj2 : ¬ (1 ≤ j ∧ j ≤ k + 1) := by omega
          rw [if_neg hj2, List.getElem?_set_ne (by omega)]

theorem forUp_shift {α : Type} (rdf : List α → Int → Option α) (hrd : ReadsInRange rdf) :
    ∀ (n i : Nat) (v : List α), i + n < v.length →
      ∃ w, forUp (shiftUpBody rdf) n (i : Int) v = some w ∧ w.length = v.length ∧
        ∀ j : Nat, w[j]? = if i ≤ j ∧ j < i + n then v[j + 1]? else v[j]? := by
  intro n
  induction n with
  | zero =>
    intro i v _
    refine ⟨v, rfl, rfl, fun j => ?_⟩
    have hj : ¬ (i ≤ j ∧ j < i + 0) := by omega
    rw [if_neg hj]
  | succ n ih =>
    intro i v hk
    have h1 : rdf v ((i + 1 : Nat) : Int) = some v[i + 1] := by
      rw [hrd v (i + 1) (by omega), List.getElem?_eq_getElem (by omega)]
    obtain ⟨w, hw, hl, hp⟩ := ih (i + 1) (v.set i v[i + 1]) (by simp; omega)
    refine ⟨w, ?_, by simpa using hl, ?_⟩
    · have h2 : (i : Int) + 1 = ((i + 1 : Nat) : Int) := by push_cast; ring
      rw [forUp, shiftUpBody, h2, h1, Option.some_bind,
        vecSet_natCast _ _ _ (show i < v.length by omega), Option.some_bind]
      exact hw
    · intro j
      rw [hp j]
      by_cases hj : i + 1 ≤ j ∧ j < i + 1 + n
      · have hj2 : i ≤ j ∧ j < i + (n + 1) := by omega
        rw [if_pos hj, if_pos hj2, List.getElem?_set_ne (by omega)]
      · rw [if_neg hj]
        by_cases hj3 : j = i
        · subst hj3
          rw [if_pos (by omega), List.getElem?_set_self (by omega),
            List.getElem?_eq_getElem (show j + 1 < v.length by omega)]
        · have hj2 : ¬ (i ≤ j ∧ j < i + (n + 1)) := by omega
          rw [if_neg hj2, List.getElem?_set_ne (by omega)]

/-! ## Rotations by one position, pointwise -/

theorem getElem?_rotate_one {α : Type} (l : List α) (j : Nat) :
    (l.rotate 1)[j]? =
      if j + 1 < l.length then l[j + 1]? else if j + 1 = l.length then l[0]? else none := by
  by_cases h1 : j + 1 < l.length
  · rw [if_pos h1, List.getElem?_rotate (by omega), Nat.mod_eq_of_lt h1]
  · rw [if_neg h1]
    by_cases h2 : j + 1 = l.length
    · rw [if_pos h2, List.getElem?_rotate (by omega), h2, Nat.mod_self]
    · rw [if_neg h2, List.getElem?_eq_none (by rw [List.length_rotate]; omega)]

theorem getElem?_rotate_pred {α : Type} (l : List α) (j : Nat) :
    (l.rotate (l.length - 1))[j]? =
      if j = 0 then l[l.length - 1]? else if j < l.length then l[j - 1]? else none := by
  by_cases h0 : l.length = 0
  · have hl : l = [] := List.length_eq_zero.mp h0
    subst hl
    simp
  by_cases h1 : j = 0
  · subst h1
    rw [if_pos rfl, List.getElem?_rotate (by omega), Nat.zero_add,
      Nat.mod_eq_of_lt (by omega)]
  · rw [if_neg h1]
    by_cases h2 : j < l.length
    · have h3 : j + (l.length - 1) = (j - 1) + l.length := by omega
      rw [if_pos h2, List.getElem?_rotate h2, h3, Nat.add_mod_right,
        Nat.mod_eq_of_lt (by omega)]
    · rw [if_neg h2, List.getElem?_eq_none (by rw [List.length_rotate]; omega)]

theorem set_of_getElem? {α : Type} (m : List α) (r : Nat) (x : α) (h : m[r]? = some x) :
    m.set r x = m := by
  apply List.ext_getElem?
  intro j
  by_cases hj : r = j
  · subst hj
    obtain ⟨hr, _⟩ := List.getElem?_eq_some.mp h
    rw [List.getElem?_set_self hr, h]
  · rw [List.getElem?_set_ne hj]

/-! ## One row of the map: the column loops of `Right` and `Left` -/

theorem forUp_succ_last {σ : Type} (body : Int → σ → Option σ) :
    ∀ (n : Nat) (i : Int) (s : σ),
      forUp body (n + 1) i s = (forUp body n i s).bind (body (i + n)) := by
  intro n
  induction n with
  | zero =>
    intro i s
    simp [forUp]
  | succ n ih =>
    intro i s
    rw [forUp]
    cases h : body i s with
    | none => simp [forUp, h]
    | some t =>
      rw [Option.some_bind, ih (i + 1) t]
      have e : i + 1 + (n : Int) = i + ((n + 1 : Nat) : Int) := by push_cast; ring
      rw [e]
      conv_rhs => rw [forUp, h, Option.some_bind]

theorem seqRight_eq {α : Type} (rd : List α → Int → Option α) (hrd : ReadsInRange rd)
    (C : Nat) (row : List α) (hlen : row.length = C) (hC : 1 ≤ C) :
    seqRight rd ((C : Int) - 1) row = some (row.rotate (C - 1)) := by
  have e : (C : Int) - 1 = ((C - 1 : Nat) : Int) := by omega
  have hlast : C - 1 < row.length := by omega
  obtain ⟨w, hw, hl, hp⟩ := forDown_shift rd hrd (C - 1) row hlast
  rw [seqRight, e, Int.toNat_ofNat, hrd row (C - 1) hlast, List.getElem?_eq_getElem hlast,
    Option.some_bind, hw, Option.some_bind]
  have h0 : vecSet w 0 row[C - 1] = some (w.set 0 row[C - 1]) :=
    vecSet_natCast w 0 _ (by omega)
  rw [h0]
  congr 1
  apply List.ext_getElem?
  intro j
  have hrot := getElem?_rotate_pred row j
  rw [hlen] at hrot
  rw [hrot]
  by_cases hj : j = 0
  · subst hj
    rw [if_pos rfl, List.getElem?_set_self (by omega), List.getElem?_eq_getElem hlast]
  · rw [if_neg hj, List.getElem?_set_ne (by omega), hp j]
    by_cases hj2 : j < C
    · rw [if_pos hj2, if_pos (by omega)]
    · rw [if_neg hj2, if_neg (by omega), List.getElem?_eq_none (by omega)]

theorem rowRight_eq (rd : Row → Int → Option Char) (hrd : ReadsInRange rd)
    (C : Nat) (row : Row) (hlen : row.length = C) (hC : 1 ≤ C) :
    rowRight rd ((C : Int) - 1) row = some (row.rotate (C - 1)) :=
  seqRight_eq rd hrd C row hlen hC

/-- The end of an upward shift: once positions `0 .. n-2` hold their right
neighbour, storing the old first element at `n-1` gives the rotation by one. -/
theorem set_last_eq_rotate_one {α : Type} (v w : List α) (n : Nat) (hlen : v.length = n)
    (h0 : 0 < v.length) (hl : w.length = v.length)
    (hp : ∀ j : Nat, w[j]? = if 0 ≤ j ∧ j < 0 + (n - 1) then v[j + 1]? else v[j]?) :
    w.set (n - 1) v[0] = v.rotate 1 := by
  apply List.ext_getElem?
  intro j
  have hrot := getElem?_rotate_one v j
  rw [hlen] at hrot
  rw [hrot]
  by_cases hj : j + 1 < n
  · rw [if_pos hj, List.getElem?_set_ne (by omega), hp j, if_pos (by omega)]
  · rw [if_neg hj]
    by_cases hj2 : j + 1 = n
    · have hj3 : n - 1 = j := by omega
      rw [if_pos hj2, hj3, List.getElem?_set_self (by omega),
        List.getElem?_eq_getElem (show 0 < v.length by omega)]
    · rw [if_neg hj2, List.getElem?_set_ne (by omega), hp j, if_neg (by omega),
        List.getElem?_eq_none (by omega)]

theorem rowLeft_eq (C : Nat) (row : Row) (hlen : row.length = C) (hC : 1 ≤ C) :
    rowLeft strAt ((C : Int) - 1) row = some (row.rotate 1) := by
  have e : ((C : Int) - 1 + 1).toNat = (C - 1) + 1 := by omega
  have hlast : C - 1 < row.length := by omega
  obtain ⟨w, hw, hl, hp⟩ := forUp_shift strAt readsInRange_strAt (C - 1) 0 row (by omega)
  have h0 : strAt row 0 = some row[0] := by
    have h := strAt_natCast row 0 (by omega)
    rw [List.getElem?_eq_getElem (by omega)] at h
    exact h
  have hNul : strAt w ((0 : Int) + ((C - 1 : Nat) : Int) + 1) = some (Char.ofNat 0) := by
    have h := strAt_length w
    have e2 : (0 : Int) + ((C - 1 : Nat) : Int) + 1 = (w.length : Int) := by omega
    rw [e2]
    exact h
  have e3 : (0 : Int) + ((C - 1 : Nat) : Int) = ((C - 1 : Nat) : Int) := by omega
  have e4 : (C : Int) - 1 = ((C - 1 : Nat) : Int) := by omega
  rw [rowLeft, h0, Option.some_bind, e, forUp_succ_last]
  have hw2 : forUp (shiftUpBody strAt) (C - 1) 0 row = some w := hw
  rw [hw2, Option.some_bind, shiftUpBody, hNul, Option.some_bind, e3,
    vecSet_natCast w (C - 1) _ (by omega), Option.some_bind, e4,
    vecSet_natCast _ (C - 1) _ (by rw [List.length_set]; omega), List.set_set]
  rw [set_last_eq_rotate_one row w C hlen (by omega) hl hp]

theorem rowLeft_checked_eq_none (C : Nat) (row : Row) (hlen : row.length = C) (hC : 1 ≤ C) :
    rowLeft strAtChecked ((C : Int) - 1) row = none := by
  have e : ((C : Int) - 1 + 1).toNat = (C - 1) + 1 := by omega
  obtain ⟨w, hw, hl, hp⟩ :=
    forUp_shift strAtChecked readsInRange_strAtChecked (C - 1) 0 row (by omega)
  have h0 : strAtChecked row 0 = some row[0] := by
    have h := strAtChecked_natCast row 0 (by omega)
    rw [List.getElem?_eq_getElem (by omega)] at h
    exact h
  have hNone : strAtChecked w ((0 : Int) + ((C - 1 : Nat) : Int) + 1) = none := by
    have h := strAtChecked_length w
    have e2 : (0 : Int) + ((C - 1 : Nat) : Int) + 1 = (w.length : Int) := by omega
    rw [e2]
    exact h
  have hw2 : forUp (shiftUpBody strAtChecked) (C - 1) 0 row = some w := hw
  rw [rowLeft, h0, Option.some_bind, e, forUp_succ_last, hw2, Option.some_bind,
    shiftUpBody, hNone]
  rfl

/-! ## From one row to the whole map -/

theorem cellAt_row (rd : Row → Int → Option Char) (m : Grid) (r : Nat) (row : Row)
    (h : m[r]? = some row) (c : Int) : cellAt rd m (r : Int) c = rd row c := by
  rw [cellAt, vecAt_natCast, h, Option.some_bind]

theorem cellSet_row (m : Grid) (r : Nat) (row : Row) (h : m[r]? = some row) (c : Int)
    (x : Char) : cellSet m (r : Int) c x = (vecSet row c x).map (fun w => m.set r w) := by
  obtain ⟨hr, _⟩ := List.getElem?_eq_some.mp h
  rw [cellSet, vecAt_natCast, h, Option.some_bind]
  cases vecSet row c x with
  | none => rfl
  | some w => rw [Option.some_bind, vecSet_natCast m r w hr, Option.map_some']

theorem rightColBody_row (rd : Row → Int → Option Char) (r : Nat) (i : Int) (m : Grid)
    (row : Row) (h : m[r]? = some row) :
    Game.rightColBody rd (r : Int) i m = (shiftDownBody rd i row).map (fun w => m.set r w) := by
  rw [Game.rightColBody, shiftDownBody, cellAt_row rd m r row h]
  cases rd row (i - 1) with
  | none => rfl
  | some x => rw [Option.some_bind, Option.some_bind, cellSet_row m r row h]

theorem leftColBody_row (rd : Row → Int → Option Char) (r : Nat) (i : Int) (m : Grid)
    (row : Row) (h : m[r]? = some row) :
    Game.leftColBody rd (r : Int) i m = (shiftUpBody rd i row).map (fun w => m.set r w) := by
  rw [Game.leftColBody, shiftUpBody, cellAt_row rd m r row h]
  cases rd row (i + 1) with
  | none => rfl
  | some x => rw [Option.some_bind, Option.some_bind, cellSet_row m r row h]

theorem forDown_row (bodyG : Int → Grid → Option Grid) (bodyR : Int → Row → Option Row)
    (r : Nat)
    (hb : ∀ (i : Int) (m : Grid) (row : Row), m[r]? = some row →
      bodyG i m = (bodyR i row).map (fun w => m.set r w)) :
    ∀ (n : Nat) (i : Int) (m : Grid) (row : Row), m[r]? = some row →
      forDown bodyG n i m = (forDown bodyR n i row).map (fun w => m.set r w) := by
  intro n
  induction n with
  | zero =>
    intro i m row h
    rw [forDown, forDown, Option.map_some', set_of_getElem? m r row h]
  | succ n ih =>
    intro i m row h
    obtain ⟨hr, _⟩ := List.getElem?_eq_some.mp h
    rw [forDown, forDown, hb i m row h]
    cases bodyR i row with
    | none => rfl
    | some w =>
      rw [Option.map_some', Option.some_bind, Option.some_bind,
        ih (i - 1) (m.set r w) w (List.getElem?_set_self hr)]
      cases forDown bodyR n (i - 1) w with
      | none => rfl
      | some u => rw [Option.map_some', Option.map_some', List.set_set]

theorem forUp_row (bodyG : Int → Grid → Option Grid) (bodyR : Int → Row → Option Row)
    (r : Nat)
    (hb : ∀ (i : Int) (m : Grid) (row : Row), m[r]? = some row →
      bodyG i m = (bodyR i row).map (fun w => m.set r w)) :
    ∀ (n : Nat) (i : Int) (m : Grid) (row : Row), m[r]? = some row →
      forUp bodyG n i m = (forUp bodyR n i row).map (fun w => m.set r w) := by
  intro n
  induction n with
  | zero =>
    intro i m row h
    rw [forUp, forUp, Option.map_some', set_of_getElem? m r row h]
  | succ n ih =>
    intro i m row h
    obtain ⟨hr, _⟩ := List.getElem?_eq_some.mp h
    rw [forUp, forUp, hb i m row h]
    cases bodyR i row with
    | none => rfl
    | some w =>
      rw [Option.map_some', Option.some_bind, Option.some_bind,
        ih (i + 1) (m.set r w) w (List.getElem?_set_self hr)]
      cases forUp bodyR n (i + 1) w with
      | none => rfl
      | some u => rw [Option.map_some', Option.map_some', List.set_set]

theorem rightRowBody_row (rd : Row → Int → Option Char) (maxCol : Int) (r : Nat) (m : Grid)
    (row : Row) (h : m[r]? = some row) :
    Game.rightRowBody rd maxCol (r : Int) m
      = (rowRight rd maxCol row).map (fun w => m.set r w) := by
  obtain ⟨hr, _⟩ := List.getElem?_eq_some.mp h
  rw [Game.rightRowBody, rowRight, seqRight, cellAt_row rd m r row h,
    forDown_row (Game.rightColBody rd r) (shiftDownBody rd) r
      (fun i m row h => rightColBody_row rd r i m row h) _ _ m row h]
  cases rd row maxCol with
  | none => rfl
  | some c =>
    rw [Option.some_bind, Option.some_bind]
    cases forDown (shiftDownBody rd) maxCol.toNat maxCol row with
    | none => rfl
    | some w =>
      rw [Option.map_some', Option.some_bind, Option.some_bind,
        cellSet_row (m.set r w) r w (List.getElem?_set_self hr)]
      cases vecSet w 0 c with
      | none => rfl
      | some u => rw [Option.map_some', Option.map_some', List.set_set]

theorem leftRowBody_row (rd : Row → Int → Option Char) (maxCol : Int) (r : Nat) (m : Grid)
    (row : Row) (h : m[r]? = some row) :
    Game.leftRowBody rd maxCol (r : Int) m
      = (rowLeft rd maxCol row).map (fun w => m.set r w) := by
  obtain ⟨hr, _⟩ := List.getElem?_eq_some.mp h
  rw [Game.leftRowBody, rowLeft, cellAt_row rd m r row h,
    forUp_row (Game.leftColBody rd r) (shiftUpBody rd) r
      (fun i m row h => leftColBody_row rd r i m row h) _ _ m row h]
  cases rd row 0 with
  | none => rfl
  | some c =>
    rw [Option.some_bind, Option.some_bind]
    cases forUp (shiftUpBody rd) (maxCol + 1).toNat 0 row with
    | none => rfl
    | some w =>
      rw [Option.map_some', Option.some_bind, Option.some_bind,
        cellSet_row (m.set r w) r w (List.getElem?_set_self hr)]
      cases vecSet w maxCol c with
      | none => rfl
      | some u => rw [Option.map_some', Option.map_some', List.set_set]

/-- A row loop whose body rewrites row `r` to `f` of it, run over rows `i .. i+n-1`. -/
theorem forUp_mapRows (body : Int → Grid → Option Grid) (f : Row → Row) (P : Row → Prop)
    (hb : ∀ (r : Nat) (m : Grid) (row : Row), m[r]? = some row → P row →
      body (r : Int) m = some (m.set r (f row))) :
    ∀ (n i : Nat) (m : Grid), i + n = m.length →
      (∀ (j : Nat) (row : Row), i ≤ j → m[j]? = some row → P row) →
      ∃ w, forUp body n (i : Int) m = some w ∧
        ∀ j : Nat, w[j]? = if i ≤ j then (m[j]?).map f else m[j]? := by
  intro n
  induction n with
  | zero =>
    intro i m hlen _
    refine ⟨m, rfl, fun j => ?_⟩
    by_cases hj : i ≤ j
    · rw [if_pos hj, List.getElem?_eq_none (by omega)]
      rfl
    · rw [if_neg hj]
  | succ n ih =>
    intro i m hlen hP
    have hi : i < m.length := by omega
    have hrow : m[i]? = some m[i] := List.getElem?_eq_getElem hi
    have hstep := hb i m m[i] hrow (hP i m[i] (le_refl i) hrow)
    obtain ⟨w, hw, hp⟩ := ih (i + 1) (m.set i (f m[i]))
      (by rw [List.length_set]; omega)
      (fun j row hj hjr => hP j row (by omega) (by
        rw [List.getElem?_set_ne (by omega)] at hjr
        exact hjr))
    refine ⟨w, ?_, ?_⟩
    · have e : (i : Int) + 1 = ((i + 1 : Nat) : Int) := by push_cast; ring
      rw [forUp, hstep, Option.some_bind, e]
      exact hw
    · intro j
      rw [hp j]
      by_cases hj : i + 1 ≤ j
      · rw [if_pos hj, if_pos (by omega), List.getElem?_set_ne (by omega)]
      · rw [if_neg hj]
        by_cases hj2 : i = j
        · subst hj2
          rw [if_pos (le_refl i), List.getElem?_set_self hi, hrow, Option.map_some']
        · rw [if_neg (by omega), List.getElem?_set_ne hj2]

theorem forUp_mapRows_all (body : Int → Grid → Option Grid) (f : Row → Row) (P : Row → Prop)
    (hb : ∀ (r : Nat) (m : Grid) (row : Row), m[r]? = some row → P row →
      body (r : Int) m = some (m.set r (f row)))
    (m : Grid) (hP : ∀ row ∈ m, P row) :
    forUp body m.length 0 m = some (m.map f) := by
  obtain ⟨w, hw, hp⟩ := forUp_mapRows body f P hb m.length 0 m (by omega)
    (fun j row _ hjr => hP row (List.getElem?_mem hjr))
  have hw2 : forUp body m.length 0 m = some w := hw
  rw [hw2]
  congr 1
  apply List.ext_getElem?
  intro j
  rw [hp j, if_pos (Nat.zero_le j), List.getElem?_map]

/-! ## `Update` in closed form -/

theorem downBody_eq : Game.downBody = shiftDownBody (vecAt : Grid → Int → Option Row) := rfl

theorem upBody_eq : Game.upBody = shiftUpBody (vecAt : Grid → Int → Option Row) := rfl

theorem UpdateWith_Down (rd : Row → Int → Option Char) (g : Game) (R C : Nat)
    (h : g.WF R C) (hd : g.direction = Direction.Down) :
    Game.UpdateWith rd g = some { g with map := g.map.rotate (R - 1) } := by
  have hseq := seqRight_eq (vecAt : Grid → Int → Option Row) readsInRange_vecAt R g.map
    h.rows h.nonempty
  rw [seqRight] at hseq
  rw [Game.UpdateWith, hd]
  simp only []
  rw [h.maxRow, downBody_eq]
  cases hv : vecAt g.map ((R : Int) - 1) with
  | none => rw [hv] at hseq; cases hseq
  | some lastLine =>
    rw [hv, Option.some_bind] at hseq
    rw [Option.some_bind]
    cases hf : forDown (shiftDownBody vecAt) ((R : Int) - 1).toNat ((R : Int) - 1) g.map with
    | none => rw [hf] at hseq; cases hseq
    | some m1 =>
      rw [hf, Option.some_bind] at hseq
      rw [Option.some_bind, hseq, Option.some_bind]

theorem UpdateWith_Up (rd : Row → Int → Option Char) (g : Game) (R C : Nat)
    (h : g.WF R C) (hd : g.direction = Direction.Up) :
    Game.UpdateWith rd g = some { g with map := g.map.rotate 1 } := by
  have hR := h.nonempty
  have hlen := h.rows
  obtain ⟨w, hw, hl, hp⟩ :=
    forUp_shift (vecAt : Grid → Int → Option Row) readsInRange_vecAt (R - 1) 0 g.map (by omega)
  have hw2 : forUp (shiftUpBody vecAt) (R - 1) 0 g.map = some w := hw
  have e : ((R : Int) - 1).toNat = R - 1 := by omega
  have e2 : (R : Int) - 1 = ((R - 1 : Nat) : Int) := by omega
  have h0 : vecAt g.map 0 = some g.map[0] := by
    have h1 := vecAt_natCast g.map 0
    rw [List.getElem?_eq_getElem (by omega)] at h1
    exact h1
  rw [Game.UpdateWith, hd]
  simp only []
  have hset : ∀ x : Row, vecSet w ((R : Int) - 1) x = some (w.set (R - 1) x) := by
    intro x
    rw [e2]
    exact vecSet_natCast w (R - 1) x (by omega)
  rw [h.maxRow, upBody_eq, h0, Option.some_bind, e, hw2, Option.some_bind, hset,
    Option.some_bind, set_last_eq_rotate_one g.map w R hlen (by omega) hl hp]

theorem UpdateWith_Right (rd : Row → Int → Option Char) (hrd : ReadsInRange rd) (g : Game)
    (R C : Nat) (h : g.WF R C) (hC : 1 ≤ C) (hd : g.direction = Direction.Right) :
    Game.UpdateWith rd g = some { g with map := g.map.map (fun row => row.rotate (C - 1)) } := by
  have hR := h.nonempty
  have e : ((R : Int) - 1 + 1).toNat = g.map.length := by rw [h.rows]; omega
  have hloop := forUp_mapRows_all (Game.rightRowBody rd ((C : Int) - 1))
    (fun row => row.rotate (C - 1)) (fun row => row.length = C)
    (fun r m row hrow hlen => by
      rw [rightRowBody_row rd _ r m row hrow, rowRight_eq rd hrd C row hlen hC,
        Option.map_some'])
    g.map h.cols
  rw [Game.UpdateWith, hd]
  simp only []
  rw [h.maxRow, h.maxCol, e, hloop, Option.some_bind]

theorem Update_Left (g : Game) (R C : Nat) (h : g.WF R C) (hC : 1 ≤ C)
    (hd : g.direction = Direction.Left) :
    Game.Update g = some { g with map := g.map.map (fun row => row.rotate 1) } := by
  have hR := h.nonempty
  have e : ((R : Int) - 1 + 1).toNat = g.map.length := by rw [h.rows]; omega
  have hloop := forUp_mapRows_all (Game.leftRowBody strAt ((C : Int) - 1))
    (fun row => row.rotate 1) (fun row => row.length = C)
    (fun r m row hrow hlen => by
      rw [leftRowBody_row strAt _ r m row hrow, rowLeft_eq C row hlen hC, Option.map_some'])
    g.map h.cols
  rw [Game.Update, Game.UpdateWith, hd]
  simp only []
  rw [h.maxRow, h.maxCol, e, hloop, Option.some_bind]

theorem UpdateChecked_Left (g : Game) (R C : Nat) (h : g.WF R C) (hC : 1 ≤ C)
    (hd : g.direction = Direction.Left) : Game.UpdateChecked g = none := by
  have hR := h.nonempty
  have hlen := h.rows
  have e : ((R : Int) - 1 + 1).toNat = (R - 1) + 1 := by omega
  have hrow : g.map[0]? = some g.map[0] := List.getElem?_eq_getElem (by omega)
  have hbody : Game.leftRowBody strAtChecked ((C : Int) - 1) 0 g.map = none := by
    have h1 := leftRowBody_row strAtChecked ((C : Int) - 1) 0 g.map g.map[0] hrow
    rw [rowLeft_checked_eq_none C g.map[0] (h.cols _ (List.getElem?_mem hrow)) hC] at h1
    exact h1
  rw [Game.UpdateChecked, Game.UpdateWith, hd]
  simp only []
  rw [h.maxRow, h.maxCol, e, forUp, hbody]
  rfl

theorem Update_Right (g : Game) (R C : Nat) (h : g.WF R C) (hC : 1 ≤ C)
    (hd : g.direction = Direction.Right) :
    Game.Update g = some { g with map := g.map.map (fun row => row.rotate (C - 1)) } :=
  UpdateWith_Right strAt readsInRange_strAt g R C h hC hd

theorem Update_Down (g : Game) (R C : Nat) (h : g.WF R C) (hd : g.direction = Direction.Down) :
    Game.Update g = some { g with map := g.map.rotate (R - 1) } :=
  UpdateWith_Down strAt g R C h hd

theorem Update_Up (g : Game) (R C : Nat) (h : g.WF R C) (hd : g.direction = Direction.Up) :
    Game.Update g = some { g with map := g.map.rotate 1 } :=
  UpdateWith_Up strAt g R C h hd

theorem WF_withMap (g : Game) (R C : Nat) (h : g.WF R C) (m : Grid) (hr : m.length = R)
    (hc : ∀ row ∈ m, row.length = C) : Game.WF { g with map := m } R C :=
  ⟨hr, hc, h.nonempty, h.maxRow, h.maxCol⟩

theorem WF_rotate (g : Game) (R C : Nat) (h : g.WF R C) (k : Nat) :
    Game.WF { g with map := g.map.rotate k } R C :=
  WF_withMap g R C h _ (by rw [List.length_rotate, h.rows])
    (fun row hrow => h.cols row (List.mem_rotate.mp hrow))

theorem WF_mapRotate (g : Game) (R C : Nat) (h : g.WF R C) (k : Nat) :
    Game.WF { g with map := g.map.map (fun row => row.rotate k) } R C :=
  WF_withMap g R C h _ (by rw [List.length_map, h.rows])
    (fun row hrow => by
      obtain ⟨row0, h0, e⟩ := List.mem_map.mp hrow
      rw [← e, List.length_rotate]
      exact h.cols row0 h0)

theorem WF_ofMap_abc (d : Direction) : (Game.ofMap d abcGrid).WF 3 3 := by
  cases d <;> exact ⟨by decide, by decide, by decide, by decide, by decide⟩

theorem WF_ctor : Game.ctor.WF 23 67 :=
  ⟨by decide, by decide, by decide, by decide, by decide⟩

theorem WF_SetDirection (g : Game) (R C : Nat) (h : g.WF R C) (state : ProgramState) :
    (g.SetDirection state).WF R C ∧ (g.SetDirection state).map = g.map := by
  cases state <;> exact ⟨⟨h.rows, h.cols, h.nonempty, h.maxRow, h.maxCol⟩, rfl⟩

theorem charAt_mapRotate (m : Grid) (k r c : Nat) :
    charAt (m.map (fun row => row.rotate k)) r c
      = (m[r]?).bind (fun row => (row.rotate k)[c]?) := by
  rw [charAt, List.getElem?_map]
  cases m[r]? with
  | none => rfl
  | some row => rfl

/-! ## C1 - C4: the four one-step rotations -/

/-- C1. For a non-empty rectangular grid of `R` rows and `C ≥ 1` columns, one `Update()`
with direction Right returns, keeps the dimensions and the direction, and rotates each
row right by one: in every row the new character at column `0` is the old one at column
`C-1`, and for `1 ≤ c ≤ C-1` the new character at `c` is the old one at `c-1`. -/
theorem C1_update_right (g : Game) (R C : Nat) (h : g.WF R C) (hC : 1 ≤ C)
    (hd : g.direction = Direction.Right) :
    ∃ g1, Game.Update g = some g1 ∧ g1.WF R C ∧ g1.direction = Direction.Right ∧
      ∀ r, r < R →
        (charAt g1.map r 0 = charAt g.map r (C - 1) ∧
          ∀ c, 1 ≤ c → c ≤ C - 1 → charAt g1.map r c = charAt g.map r (c - 1)) := by
  refine ⟨_, Update_Right g R C h hC hd, WF_mapRotate g R C h (C - 1), hd, ?_⟩
  intro r hr
  have hr2 : r < g.map.length := by rw [h.rows]; exact hr
  have hrow : g.map[r]? = some g.map[r] := List.getElem?_eq_getElem hr2
  have hlen : (g.map[r]).length = C := h.cols _ (List.getElem?_mem hrow)
  have hrot := getElem?_rotate_pred g.map[r]
  rw [hlen] at hrot
  constructor
  · show charAt (g.map.map (fun row => row.rotate (C - 1))) r 0 = _
    rw [charAt_mapRotate, charAt, hrow, Option.some_bind, Option.some_bind, hrot 0, if_pos rfl]
  · intro c hc1 hc2
    show charAt (g.map.map (fun row => row.rotate (C - 1))) r c = _
    rw [charAt_mapRotate, charAt, hrow, Option.some_bind, Option.some_bind, hrot c,
      if_neg (by omega), if_pos (by omega)]

/-- C1, scenario: `["abc","def","ghi"]` becomes `["cab","fde","igh"]`. -/
theorem C1_update_right_witness :
    (Game.ofMap Direction.Right abcGrid).WF 3 3 ∧
    Game.Update (Game.ofMap Direction.Right abcGrid)
      = some (Game.ofMap Direction.Right [['c', 'a', 'b'], ['f', 'd', 'e'], ['i', 'g', 'h']]) ∧
    ∃ g1, Game.Update (Game.ofMap Direction.Right abcGrid) = some g1 ∧ g1.WF 3 3 ∧
      g1.direction = Direction.Right ∧
      ∀ r, r < 3 →
        (charAt g1.map r 0 = charAt (Game.ofMap Direction.Right abcGrid).map r (3 - 1) ∧
          ∀ c, 1 ≤ c → c ≤ 3 - 1 →
            charAt g1.map r c = charAt (Game.ofMap Direction.Right abcGrid).map r (c - 1)) :=
  ⟨WF_ofMap_abc Direction.Right, by decide,
    C1_update_right (Game.ofMap Direction.Right abcGrid) 3 3 (WF_ofMap_abc Direction.Right)
      (by decide) rfl⟩

/-- C2. For a non-empty rectangular grid of `R` rows and `C ≥ 1` columns, one `Update()`
with direction Left returns, keeps the dimensions and the direction, and rotates each
row left by one: in every row, for `0 ≤ c ≤ C-2` the new character at `c` is the old one
at `c+1`, and the new character at column `C-1` is the old one at column `0`. -/
theorem C2_update_left (g : Game) (R C : Nat) (h : g.WF R C) (hC : 1 ≤ C)
    (hd : g.direction = Direction.Left) :
    ∃ g1, Game.Update g = some g1 ∧ g1.WF R C ∧ g1.direction = Direction.Left ∧
      ∀ r, r < R →
        ((∀ c, c + 2 ≤ C → charAt g1.map r c = charAt g.map r (c + 1)) ∧
          charAt g1.map r (C - 1) = charAt g.map r 0) := by
  refine ⟨_, Update_Left g R C h hC hd, WF_mapRotate g R C h 1, hd, ?_⟩
  intro r hr
  have hr2 : r < g.map.length := by rw [h.rows]; exact hr
  have hrow : g.map[r]? = some g.map[r] := List.getElem?_eq_getElem hr2
  have hlen : (g.map[r]).length = C := h.cols _ (List.getElem?_mem hrow)
  have hrot := getElem?_rotate_one g.map[r]
  rw [hlen] at hrot
  constructor
  · intro c hc
    show charAt (g.map.map (fun row => row.rotate 1)) r c = _
    rw [charAt_mapRotate, charAt, hrow, Option.some_bind, Option.some_bind, hrot c,
      if_pos (by omega)]
  · show charAt (g.map.map (fun row => row.rotate 1)) r (C - 1) = _
    rw [charAt_mapRotate, charAt, hrow, Option.some_bind, Option.some_bind, hrot (C - 1),
      if_neg (by omega), if_pos (by omega)]

/-- C2, scenario: `["abc","def","ghi"]` becomes `["bca","efd","hig"]`. -/
theorem C2_update_left_witness :
    (Game.ofMap Direction.Left abcGrid).WF 3 3 ∧
    Game.Update (Game.ofMap Direction.Left abcGrid)
      = some (Game.ofMap Direction.Left [['b', 'c', 'a'], ['e', 'f', 'd'], ['h', 'i', 'g']]) ∧
    ∃ g1, Game.Update (Game.ofMap Direction.Left abcGrid) = some g1 ∧ g1.WF 3 3 ∧
      g1.direction = Direction.Left ∧
      ∀ r, r < 3 →
        ((∀ c, c + 2 ≤ 3 →
            charAt g1.map r c = charAt (Game.ofMap Direction.Left abcGrid).map r (c + 1)) ∧
          charAt g1.map r (3 - 1) = charAt (Game.ofMap Direction.Left abcGrid).map r 0) :=
  ⟨WF_ofMap_abc Direction.Left, by decide,
    C2_update_left (Game.ofMap Direction.Left abcGrid) 3 3 (WF_ofMap_abc Direction.Left)
      (by decide) rfl⟩

/-- C3. For a non-empty rectangular grid of `R` rows, one `Update()` with direction Down
returns, keeps the dimensions and the direction, and rotates the rows down by one: the
new row `0` is the old row `R-1`, and for `1 ≤ r ≤ R-1` the new row `r` is the old row
`r-1`. -/
theorem C3_update_down (g : Game) (R C : Nat) (h : g.WF R C)
    (hd : g.direction = Direction.Down) :
    ∃ g1, Game.Update g = some g1 ∧ g1.WF R C ∧ g1.direction = Direction.Down ∧
      g1.map[0]? = g.map[R - 1]? ∧
      ∀ r, 1 ≤ r → r ≤ R - 1 → g1.map[r]? = g.map[r - 1]? := by
  refine ⟨_, Update_Down g R C h hd, WF_rotate g R C h (R - 1), hd, ?_, ?_⟩
  · show (g.map.rotate (R - 1))[0]? = _
    have hrot := getElem?_rotate_pred g.map 0
    rw [h.rows] at hrot
    rw [hrot, if_pos rfl]
  · intro r hr1 hr2
    show (g.map.rotate (R - 1))[r]? = _
    have hrot := getElem?_rotate_pred g.map r
    rw [h.rows] at hrot
    rw [hrot, if_neg (by omega), if_pos (by omega)]

/-- C3, scenario: `["abc","def","ghi"]` becomes `["ghi","abc","def"]`. -/
theorem C3_update_down_witness :
    (Game.ofMap Direction.Down abcGrid).WF 3 3 ∧
    Game.Update (Game.ofMap Direction.Down abcGrid)
      = some (Game.ofMap Direction.Down [['g', 'h', 'i'], ['a', 'b', 'c'], ['d', 'e', 'f']]) ∧
    ∃ g1, Game.Update (Game.ofMap Direction.Down abcGrid) = some g1 ∧ g1.WF 3 3 ∧
      g1.direction = Direction.Down ∧
      g1.map[0]? = (Game.ofMap Direction.Down abcGrid).map[3 - 1]? ∧
      ∀ r, 1 ≤ r → r ≤ 3 - 1 → g1.map[r]? = (Game.ofMap Direction.Down abcGrid).map[r - 1]? :=
  ⟨WF_ofMap_abc Direction.Down, by decide,
    C3_update_down (Game.ofMap Direction.Down abcGrid) 3 3 (WF_ofMap_abc Direction.Down) rfl⟩

/-- C4. For a non-empty rectangular grid of `R` rows, one `Update()` with direction Up
returns, keeps the dimensions and the direction, and rotates the rows up by one: for
`0 ≤ r ≤ R-2` the new row `r` is the old row `r+1`, and the new row `R-1` is the old
row `0`. -/
theorem C4_update_up (g : Game) (R C : Nat) (h : g.WF R C)
    (hd : g.direction = Direction.Up) :
    ∃ g1, Game.Update g = some g1 ∧ g1.WF R C ∧ g1.direction = Direction.Up ∧
      (∀ r, r + 2 ≤ R → g1.map[r]? = g.map[r + 1]?) ∧
      g1.map[R - 1]? = g.map[0]? := by
  have hR := h.nonempty
  refine ⟨_, Update_Up g R C h hd, WF_rotate g R C h 1, hd, ?_, ?_⟩
  · intro r hr
    show (g.map.rotate 1)[r]? = _
    have hrot := getElem?_rotate_one g.map r
    rw [h.rows] at hrot
    rw [hrot, if_pos (by omega)]
  · show (g.map.rotate 1)[R - 1]? = _
    have hrot := getElem?_rotate_one g.map (R - 1)
    rw [h.rows] at hrot
    rw [hrot, if_neg (by omega), if_pos (by omega)]

/-- C4, scenario: `["abc","def","ghi"]` becomes `["def","ghi","abc"]`. -/
theorem C4_update_up_witness :
    (Game.ofMap Direction.Up abcGrid).WF 3 3 ∧
    Game.Update (Game.ofMap Direction.Up abcGrid)
      = some (Game.ofMap Direction.Up [['d', 'e', 'f'], ['g', 'h', 'i'], ['a', 'b', 'c']]) ∧
    ∃ g1, Game.Update (Game.ofMap Direction.Up abcGrid) = some g1 ∧ g1.WF 3 3 ∧
      g1.direction = Direction.Up ∧
      (∀ r, r + 2 ≤ 3 → g1.map[r]? = (Game.ofMap Direction.Up abcGrid).map[r + 1]?) ∧
      g1.map[3 - 1]? = (Game.ofMap Direction.Up abcGrid).map[0]? :=
  ⟨WF_ofMap_abc Direction.Up, by decide,
    C4_update_up (Game.ofMap Direction.Up abcGrid) 3 3 (WF_ofMap_abc Direction.Up) rfl⟩

/-! ## C5: the round trip -/

theorem UpdateN_closed (F : Grid → Grid) (d : Direction) (R C : Nat)
    (hF : ∀ g : Game, g.WF R C → g.direction = d →
      Game.Update g = some { g with map := F g.map })
    (hdim : ∀ g : Game, g.WF R C → Game.WF { g with map := F g.map } R C) :
    ∀ (n : Nat) (g : Game), g.WF R C → g.direction = d →
      Game.UpdateN n g = some { g with map := F^[n] g.map } := by
  intro n
  induction n with
  | zero =>
    intro g _ _
    rfl
  | succ n ih =>
    intro g h hd
    rw [Game.UpdateN, hF g h hd, Option.some_bind, ih _ (hdim g h) hd,
      Function.iterate_succ_apply]

theorem iterate_rotate {α : Type} (k : Nat) (n : Nat) (l : List α) :
    (fun m : List α => m.rotate k)^[n] l = l.rotate (n * k) := by
  induction n generalizing l with
  | zero => simp
  | succ n ih =>
    rw [Function.iterate_succ_apply, ih, List.rotate_rotate]
    congr 1
    ring

theorem iterate_mapRotate (k : Nat) (n : Nat) (m : Grid) :
    (fun m : Grid => m.map (fun row => row.rotate k))^[n] m
      = m.map (fun row => row.rotate (n * k)) := by
  induction n generalizing m with
  | zero => simp
  | succ n ih =>
    rw [Function.iterate_succ_apply, ih, List.map_map]
    apply List.map_congr_left
    intro row _
    show (row.rotate k).rotate (n * k) = row.rotate ((n + 1) * k)
    rw [List.rotate_rotate]
    congr 1
    ring

theorem rotate_rows_full (m : Grid) (R k : Nat) (h : m.length = R) :
    m.rotate (R * k) = m := by
  rw [← h]
  exact List.rotate_length_mul m k

theorem mapRotate_full (m : Grid) (C k : Nat) (h : ∀ row ∈ m, row.length = C) :
    m.map (fun row => row.rotate (C * k)) = m := by
  have e : m.map (fun row => row.rotate (C * k)) = m.map id := by
    apply List.map_congr_left
    intro row hrow
    show row.rotate (C * k) = row
    rw [← h row hrow]
    exact List.rotate_length_mul row k
  rw [e, List.map_id]

/-- C5. Round trip: on a non-empty rectangular grid of `R` rows and `C ≥ 1` columns,
`R` consecutive `Update()` calls with the direction fixed at Up or at Down return exactly
the starting state, and so do `C` consecutive calls with the direction fixed at Left or
at Right. -/
theorem C5_round_trip (g : Game) (R C : Nat) (h : g.WF R C) (hC : 1 ≤ C) :
    ((g.direction = Direction.Up ∨ g.direction = Direction.Down) →
        Game.UpdateN R g = some g) ∧
    ((g.direction = Direction.Left ∨ g.direction = Direction.Right) →
        Game.UpdateN C g = some g) := by
  constructor
  · intro hd
    rcases hd with hd | hd
    · rw [UpdateN_closed (fun m => m.rotate 1) Direction.Up R C
        (fun g1 h1 hd1 => Update_Up g1 R C h1 hd1) (fun g1 h1 => WF_rotate g1 R C h1 1)
        R g h hd, iterate_rotate, rotate_rows_full g.map R 1 h.rows]
    · rw [UpdateN_closed (fun m => m.rotate (R - 1)) Direction.Down R C
        (fun g1 h1 hd1 => Update_Down g1 R C h1 hd1)
        (fun g1 h1 => WF_rotate g1 R C h1 (R - 1))
        R g h hd, iterate_rotate, rotate_rows_full g.map R (R - 1) h.rows]
  · intro hd
    rcases hd with hd | hd
    · rw [UpdateN_closed (fun m => m.map (fun row => row.rotate 1)) Direction.Left R C
        (fun g1 h1 hd1 => Update_Left g1 R C h1 hC hd1)
        (fun g1 h1 => WF_mapRotate g1 R C h1 1)
        C g h hd, iterate_mapRotate, mapRotate_full g.map C 1 h.cols]
    · rw [UpdateN_closed (fun m => m.map (fun row => row.rotate (C - 1))) Direction.Right R C
        (fun g1 h1 hd1 => Update_Right g1 R C h1 hC hd1)
        (fun g1 h1 => WF_mapRotate g1 R C h1 (C - 1))
        C g h hd, iterate_mapRotate, mapRotate_full g.map C (C - 1) h.cols]

/-- C5 on the 2 x 3 grid `["abc","def"]`: three calls with direction Left return the
start (one call does not), and so do three with Right, two with Up and two with Down. -/
theorem C5_round_trip_witness :
    (Game.ofMap Direction.Left abcdefGrid).WF 2 3 ∧
    Game.UpdateN 3 (Game.ofMap Direction.Left abcdefGrid)
      = some (Game.ofMap Direction.Left abcdefGrid) ∧
    Game.UpdateN 1 (Game.ofMap Direction.Left abcdefGrid)
      ≠ some (Game.ofMap Direction.Left abcdefGrid) ∧
    Game.UpdateN 3 (Game.ofMap Direction.Right abcdefGrid)
      = some (Game.ofMap Direction.Right abcdefGrid) ∧
    Game.UpdateN 2 (Game.ofMap Direction.Up abcdefGrid)
      = some (Game.ofMap Direction.Up abcdefGrid) ∧
    Game.UpdateN 2 (Game.ofMap Direction.Down abcdefGrid)
      = some (Game.ofMap Direction.Down abcdefGrid) :=
  ⟨⟨by decide, by decide, by decide, by decide, by decide⟩,
    (C5_round_trip (Game.ofMap Direction.Left abcdefGrid) 2 3
      ⟨by decide, by decide, by decide, by decide, by decide⟩ (by decide)).2 (Or.inl rfl),
    by decide, by decide, by decide, by decide⟩

/-! ## C6, C7: what every `Update()` keeps -/

theorem flatten_mapRotate_perm (k : Nat) (m : Grid) :
    (m.map (fun row => row.rotate k)).flatten.Perm m.flatten := by
  induction m with
  | nil => exact List.Perm.refl _
  | cons row rest ih =>
    rw [List.map_cons, List.flatten_cons, List.flatten_cons]
    exact List.Perm.append (List.rotate_perm row k) ih

/-- One `Update()` on a non-empty `R x C` rectangle, `C ≥ 1`, whatever the direction:
it returns, and the new state has the same direction and index fields, the same
dimensions, and a map that is a rearrangement of the old one. -/
theorem Update_keeps (g : Game) (R C : Nat) (h : g.WF R C) (hC : 1 ≤ C) :
    ∃ g1, Game.Update g = some g1 ∧ g1.WF R C ∧ g1.direction = g.direction ∧
      g1.maxRowIndex = g.maxRowIndex ∧ g1.maxColIndex = g.maxColIndex ∧
      g1.map.flatten.Perm g.map.flatten := by
  cases hd : g.direction with
  | Up =>
    exact ⟨_, Update_Up g R C h hd, WF_rotate g R C h 1, hd, rfl, rfl,
      List.Perm.flatten (List.rotate_perm g.map 1)⟩
  | Right =>
    exact ⟨_, Update_Right g R C h hC hd, WF_mapRotate g R C h (C - 1), hd, rfl, rfl,
      flatten_mapRotate_perm (C - 1) g.map⟩
  | Down =>
    exact ⟨_, Update_Down g R C h hd, WF_rotate g R C h (R - 1), hd, rfl, rfl,
      List.Perm.flatten (List.rotate_perm g.map (R - 1))⟩
  | Left =>
    exact ⟨_, Update_Left g R C h hC hd, WF_mapRotate g R C h 1, hd, rfl, rfl,
      flatten_mapRotate_perm 1 g.map⟩

/-- C6. Content conservation: on a non-empty rectangular grid (`R ≥ 1` rows, `C ≥ 1`
columns), every finite sequence of `Update()` and `SetDirection` calls, in any order
and from any direction, runs to the end, and the multiset of characters of the grid
after it equals the one before it; in particular a NUL character is in the grid
afterwards only if one was there before. -/
theorem C6_content_conservation (g : Game) (R C : Nat) (h : g.WF R C) (hC : 1 ≤ C)
    (ops : List Op) :
    ∃ g1, Game.run ops g = some g1 ∧
      (g1.map.flatten : Multiset Char) = (g.map.flatten : Multiset Char) ∧
      (Char.ofNat 0 ∈ g1.map.flatten → Char.ofNat 0 ∈ g.map.flatten) := by
  have key : ∀ (ops : List Op) (g : Game), g.WF R C →
      ∃ g1, Game.run ops g = some g1 ∧ g1.map.flatten.Perm g.map.flatten := by
    intro ops
    induction ops with
    | nil =>
      intro g _
      exact ⟨g, rfl, List.Perm.refl _⟩
    | cons op ops ih =>
      intro g hg
      cases op with
      | SetDirection state =>
        obtain ⟨hwf, hmap⟩ := WF_SetDirection g R C hg state
        obtain ⟨g1, hrun, hperm⟩ := ih (g.SetDirection state) hwf
        rw [hmap] at hperm
        exact ⟨g1, hrun, hperm⟩
      | Update =>
        obtain ⟨g0, hupd, hwf, _, _, _, hperm0⟩ := Update_keeps g R C hg hC
        obtain ⟨g1, hrun, hperm⟩ := ih g0 hwf
        refine ⟨g1, ?_, hperm.trans hperm0⟩
        rw [Game.run, hupd, Option.some_bind]
        exact hrun
  obtain ⟨g1, hrun, hperm⟩ := key ops g h
  exact ⟨g1, hrun, Multiset.coe_eq_coe.mpr hperm, fun hmem => hperm.mem_iff.mp hmem⟩

/-- C6 on `["abc","def","ghi"]`: Update, `SetDirection(Left)`, Update, Update,
`SetDirection(Down)`, Update, starting with direction Right. -/
theorem C6_content_conservation_witness :
    (Game.ofMap Direction.Right abcGrid).WF 3 3 ∧
    Game.run [Op.Update, Op.SetDirection ProgramState.Left, Op.Update, Op.Update,
        Op.SetDirection ProgramState.Down, Op.Update] (Game.ofMap Direction.Right abcGrid)
      = some (Game.ofMap Direction.Down
          [['h', 'i', 'g'], ['b', 'c', 'a'], ['e', 'f', 'd']]) ∧
    ∃ g1, Game.run [Op.Update, Op.SetDirection ProgramState.Left, Op.Update, Op.Update,
        Op.SetDirection ProgramState.Down, Op.Update] (Game.ofMap Direction.Right abcGrid)
        = some g1 ∧
      (g1.map.flatten : Multiset Char)
        = ((Game.ofMap Direction.Right abcGrid).map.flatten : Multiset Char) ∧
      (Char.ofNat 0 ∈ g1.map.flatten →
        Char.ofNat 0 ∈ (Game.ofMap Direction.Right abcGrid).map.flatten) :=
  ⟨WF_ofMap_abc Direction.Right, by decide,
    C6_content_conservation (Game.ofMap Direction.Right abcGrid) 3 3
      (WF_ofMap_abc Direction.Right) (by decide) _⟩

/-- C7. Rectangularity: on a non-empty rectangular grid (`R ≥ 1` rows, `C ≥ 1` columns)
and for each of the four directions, `Update()` returns a grid with the same number of
rows, in which every row has the length the row at that position had before, namely
`C`; the stored index fields do not change, so the result is again an `R x C`
rectangle. -/
theorem C7_rectangularity (g : Game) (R C : Nat) (h : g.WF R C) (hC : 1 ≤ C) :
    ∃ g1, Game.Update g = some g1 ∧
      g1.map.length = g.map.length ∧
      (∀ r : Nat, (g1.map[r]?).map List.length = (g.map[r]?).map List.length) ∧
      (∀ row ∈ g1.map, row.length = C) ∧
      g1.WF R C := by
  obtain ⟨g1, hupd, hwf, _, _, _, _⟩ := Update_keeps g R C h hC
  refine ⟨g1, hupd, by rw [hwf.rows, h.rows], ?_, hwf.cols, hwf⟩
  intro r
  by_cases hr : r < R
  · have h1 : r < g1.map.length := by rw [hwf.rows]; exact hr
    have h2 : r < g.map.length := by rw [h.rows]; exact hr
    rw [List.getElem?_eq_getElem h1, List.getElem?_eq_getElem h2, Option.map_some',
      Option.map_some', hwf.cols _ (List.getElem_mem h1), h.cols _ (List.getElem_mem h2)]
  · rw [List.getElem?_eq_none (by rw [hwf.rows]; omega),
      List.getElem?_eq_none (by rw [h.rows]; omega)]

/-- C7 on the 2 x 3 grid `["abc","def"]` with direction Down. -/
theorem C7_rectangularity_witness :
    (Game.ofMap Direction.Down abcdefGrid).WF 2 3 ∧
    ∃ g1, Game.Update (Game.ofMap Direction.Down abcdefGrid) = some g1 ∧
      g1.map.length = (Game.ofMap Direction.Down abcdefGrid).map.length ∧
      (∀ r : Nat, (g1.map[r]?).map List.length
        = ((Game.ofMap Direction.Down abcdefGrid).map[r]?).map List.length) ∧
      (∀ row ∈ g1.map, row.length = 3) ∧
      g1.WF 2 3 :=
  ⟨⟨by decide, by decide, by decide, by decide, by decide⟩,
    C7_rectangularity (Game.ofMap Direction.Down abcdefGrid) 2 3
      ⟨by decide, by decide, by decide, by decide, by decide⟩ (by decide)⟩

/-! ## C8: the subscripts of `Update` -/

theorem UpdateChecked_eq_Update (g : Game) (R C : Nat) (h : g.WF R C) (hC : 1 ≤ C)
    (hd : g.direction ≠ Direction.Left) : Game.UpdateChecked g = Game.Update g := by
  cases hdir : g.direction with
  | Up =>
    rw [Game.UpdateChecked, Game.Update, UpdateWith_Up _ g R C h hdir,
      UpdateWith_Up _ g R C h hdir]
  | Right =>
    rw [Game.UpdateChecked, Game.Update,
      UpdateWith_Right _ readsInRange_strAtChecked g R C h hC hdir,
      UpdateWith_Right _ readsInRange_strAt g R C h hC hdir]
  | Down =>
    rw [Game.UpdateChecked, Game.Update, UpdateWith_Down _ g R C h hdir,
      UpdateWith_Down _ g R C h hdir]
  | Left => exact absurd hdir hd

/-- Without a first column there is nothing to rotate sideways: on a grid of rows of
length `0` the horizontal directions subscript position `-1`. -/
theorem Update_zero_columns :
    Game.Update (Game.ofMap Direction.Right [[]]) = none ∧
    Game.Update (Game.ofMap Direction.Left [[]]) = none := by
  decide

/-- C8, at the failing inputs.  With every column subscript held to `0 .. C-1`,
`Update` with direction Left stops at an out-of-range read, on the constructed 23 x 67
game once `SetDirection(Left)` was applied and on `["abc","def","ghi"]`: the column loop
of `case Direction::Left` reads `map[row][col+1]` at `col = maxColIndex`, that is column
`C`.  The other three directions stay in range.  Under the C++ meaning of that read (the
terminating NUL) the call still returns the rotated grid `["bca","efd","hig"]`. -/
theorem C8_left_reads_column_C :
    Game.UpdateChecked (Game.ctor.SetDirection ProgramState.Left) = none ∧
    Game.UpdateChecked (Game.ofMap Direction.Left abcGrid) = none ∧
    Game.leftColBody strAtChecked 0 2 abcGrid = none ∧
    cellAt strAtChecked abcGrid 0 (2 + 1) = none ∧
    cellAt strAt abcGrid 0 (2 + 1) = some (Char.ofNat 0) ∧
    Game.UpdateChecked (Game.ofMap Direction.Right abcGrid)
      = Game.Update (Game.ofMap Direction.Right abcGrid) ∧
    Game.UpdateChecked (Game.ofMap Direction.Up abcGrid)
      = Game.Update (Game.ofMap Direction.Up abcGrid) ∧
    Game.UpdateChecked (Game.ofMap Direction.Down abcGrid)
      = Game.Update (Game.ofMap Direction.Down abcGrid) ∧
    Game.Update (Game.ofMap Direction.Left abcGrid)
      = some (Game.ofMap Direction.Left [['b', 'c', 'a'], ['e', 'f', 'd'], ['h', 'i', 'g']]) := by
  refine ⟨?_, ?_, ?_, ?_, ?_, ?_, ?_, ?_, ?_⟩
  · exact UpdateChecked_Left (Game.ctor.SetDirection ProgramState.Left) 23 67
      (WF_SetDirection Game.ctor 23 67 WF_ctor ProgramState.Left).1 (by decide) rfl
  · exact UpdateChecked_Left (Game.ofMap Direction.Left abcGrid) 3 3
      (WF_ofMap_abc Direction.Left) (by decide) rfl
  · decide
  · decide
  · decide
  · decide
  · decide
  · decide
  · decide

/-! ## C9: the key decoding -/

/-- C9. `Input::handle` is a total, fixed decoding of the key code: `119` ('w') gives Up,
`97` ('a') Left, `115` ('s') Down, `100` ('d') Right, `27` Stop and every other integer,
the no-key value included, Continue; each code has exactly one signal, and the signal
differs from Continue exactly for those five codes. -/
theorem C9_handle_total (c : Int) :
    Input.handle c =
      (if c = 119 then ProgramState.Up
        else if c = 97 then ProgramState.Left
        else if c = 115 then ProgramState.Down
        else if c = 100 then ProgramState.Right
        else if c = 27 then ProgramState.Stop
        else ProgramState.Continue) ∧
    (∃! signal, Input.handle c = signal) ∧
    (Input.handle c ≠ ProgramState.Continue ↔
      (c = 119 ∨ c = 97 ∨ c = 115 ∨ c = 100 ∨ c = 27)) := by
  have ew : (('w'.toNat : Nat) : Int) = 119 := by decide
  have ea : (('a'.toNat : Nat) : Int) = 97 := by decide
  have es : (('s'.toNat : Nat) : Int) = 115 := by decide
  have ed : (('d'.toNat : Nat) : Int) = 100 := by decide
  have hdef : Input.handle c =
      (if c = 119 then ProgramState.Up
        else if c = 97 then ProgramState.Left
        else if c = 115 then ProgramState.Down
        else if c = 100 then ProgramState.Right
        else if c = 27 then ProgramState.Stop
        else ProgramState.Continue) := by
    rw [Input.handle, ew, ea, es, ed]
  refine ⟨hdef, ⟨Input.handle c, rfl, fun y hy => hy.symm⟩, ?_⟩
  rw [hdef]
  by_cases h1 : c = 119
  · simp [h1]
  by_cases h2 : c = 97
  · simp [h2]
  by_cases h3 : c = 115
  · simp [h3]
  by_cases h4 : c = 100
  · simp [h4]
  by_cases h5 : c = 27
  · simp [h5]
  simp [h1, h2, h3, h4, h5]

/-! ## C10: the main loop -/

theorem forUp_total {σ : Type} (body : Int → σ → Option σ) :
    ∀ (n i : Nat), (∀ (j : Nat) (s : σ), i ≤ j → j < i + n → ∃ t, body (j : Int) s = some t) →
      ∀ s : σ, ∃ t, forUp body n (i : Int) s = some t := by
  intro n
  induction n with
  | zero =>
    intro i _ s
    exact ⟨s, rfl⟩
  | succ n ih =>
    intro i hb s
    obtain ⟨t, ht⟩ := hb i s (le_refl i) (by omega)
    obtain ⟨u, hu⟩ := ih (i + 1) (fun j s1 h1 h2 => hb j s1 (by omega) (by omega)) t
    refine ⟨u, ?_⟩
    have e : (i : Int) + 1 = ((i + 1 : Nat) : Int) := by push_cast; ring
    rw [forUp, ht, Option.some_bind, e]
    exact hu

theorem Draw_total (out : Output) (map : Grid) : ∃ out1, Render.Draw out map = some out1 := by
  have h := forUp_total (Render.drawBody map) map.length 0
    (fun j s _ hj => by
      have hj2 : j < map.length := by omega
      refine ⟨Console.print (Console.moveCursor s j 0) map[j], ?_⟩
      rw [Render.drawBody, vecAt_natCast, List.getElem?_eq_getElem hj2, Option.some_bind])
    out
  exact h

theorem specFrame_total (g : Game) (R C : Nat) (h : g.WF R C) (hC : 1 ≤ C)
    (signal : ProgramState) (out : Output) :
    ∃ g1 out1, specFrame signal g out = some (g1, out1) ∧ g1.WF R C ∧
      Game.Update (g.SetDirection signal) = some g1 ∧
      Render.Draw out g1.map = some out1 := by
  obtain ⟨hwf, _⟩ := WF_SetDirection g R C h signal
  obtain ⟨g1, hupd, hwf1, _⟩ := Update_keeps (g.SetDirection signal) R C hwf hC
  obtain ⟨out1, hdraw⟩ := Draw_total out g1.map
  refine ⟨g1, out1, ?_, hwf1, hupd, hdraw⟩
  rw [specFrame, Game.run, Game.run, hupd, Option.some_bind, Game.run, Option.some_bind,
    hdraw, Option.map_some']

theorem mainLoop_frames (R C : Nat) (hC : 1 ≤ C) :
    ∀ (pre : List Int) (g : Game) (out : Output), g.WF R C →
      (∀ c ∈ pre, Input.handle c ≠ ProgramState.Stop) →
      ∃ g1 out1, specFrames (pre.map Input.handle) g out = some (g1, out1) ∧
        mainLoop pre g out = some (LoopState.Running, g1, out1) ∧
        ∀ (k : Int) (post : List Int), Input.handle k = ProgramState.Stop →
          mainLoop (pre ++ k :: post) g out = some (LoopState.Stopped, g1, out1) := by
  intro pre
  induction pre with
  | nil =>
    intro g out _ _
    refine ⟨g, out, rfl, rfl, ?_⟩
    intro k post hk
    rw [List.nil_append, mainLoop, if_pos hk]
  | cons c pre ih =>
    intro g out h hpre
    have hc : Input.handle c ≠ ProgramState.Stop := hpre c (List.mem_cons_self c pre)
    obtain ⟨g1, out1, hspec, hwf1, hupd, hdraw⟩ :=
      specFrame_total g R C h hC (Input.handle c) out
    obtain ⟨g2, out2, hspecs, hrun, hstop⟩ := ih g1 out1 hwf1
      (fun c1 hc1 => hpre c1 (List.mem_cons_of_mem c hc1))
    refine ⟨g2, out2, ?_, ?_, ?_⟩
    · rw [List.map_cons, specFrames, hspec, Option.some_bind]
      exact hspecs
    · rw [mainLoop, if_neg hc, hupd, Option.some_bind, hdraw, Option.some_bind]
      exact hrun
    · intro k post hk
      rw [List.cons_append, mainLoop, if_neg hc, hupd, Option.some_bind, hdraw,
        Option.some_bind]
      exact hstop k post hk

/-- C10. The main loop as a state machine over the polled key codes, started from the
startup state (the constructed game, the set-up output): if none of the codes `pre`
decodes to Stop and the code `k` after them does, then (a) each of the signals of `pre`
takes one iteration `SetDirection(signal)`, one `Update()`, one `Draw` of the resulting
grid, in that order, and all of them run to the end, giving a game and an output; (b)
after `pre` the loop is still Running with that game and output; (c) on `k` the loop is
Stopped with the same game and output, no `Update()` and no `Draw` having happened, and
whatever codes `post` follow change nothing. -/
theorem C10_main_loop (pre post : List Int) (k : Int)
    (hpre : ∀ c ∈ pre, Input.handle c ≠ ProgramState.Stop)
    (hk : Input.handle k = ProgramState.Stop) :
    ∃ game out,
      specFrames (pre.map Input.handle) Game.ctor startOutput = some (game, out) ∧
      mainLoop pre Game.ctor startOutput = some (LoopState.Running, game, out) ∧
      mainLoop (pre ++ k :: post) Game.ctor startOutput
        = some (LoopState.Stopped, game, out) := by
  obtain ⟨g1, out1, hspecs, hrun, hstop⟩ :=
    mainLoop_frames 23 67 (by decide) pre Game.ctor startOutput WF_ctor hpre
  exact ⟨g1, out1, hspecs, hrun, hstop k post hk⟩

/-- C10 on the codes `d`, no key, `w`, then ESC, then `a`. -/
theorem C10_main_loop_witness :
    (∀ c ∈ [(100 : Int), -1, 119], Input.handle c ≠ ProgramState.Stop) ∧
    Input.handle 27 = ProgramState.Stop ∧
    ∃ game out,
      specFrames ([(100 : Int), -1, 119].map Input.handle) Game.ctor startOutput
        = some (game, out) ∧
      mainLoop [100, -1, 119] Game.ctor startOutput = some (LoopState.Running, game, out) ∧
      mainLoop ([100, -1, 119] ++ 27 :: [97]) Game.ctor startOutput
        = some (LoopState.Stopped, game, out) :=
  ⟨by decide, by decide, C10_main_loop [100, -1, 119] [97] 27 (by decide) (by decide)⟩

/-! ## C11, C14, C17: `SetDirection` -/

/-- C11. `SetDirection` maps each move signal to the direction of the same name and
ignores everything else: from every state, Up gives Up, Down gives Down, Left gives
Left, Right gives Right, and Continue and Stop leave the state, hence the direction,
as it was. -/
theorem C11_setDirection_mapping (g : Game) :
    (g.SetDirection ProgramState.Up).direction = Direction.Up ∧
    (g.SetDirection ProgramState.Down).direction = Direction.Down ∧
    (g.SetDirection ProgramState.Left).direction = Direction.Left ∧
    (g.SetDirection ProgramState.Right).direction = Direction.Right ∧
    (g.SetDirection ProgramState.Continue).direction = g.direction ∧
    (g.SetDirection ProgramState.Stop).direction = g.direction ∧
    g.SetDirection ProgramState.Continue = g ∧
    g.SetDirection ProgramState.Stop = g :=
  ⟨rfl, rfl, rfl, rfl, rfl, rfl, rfl, rfl⟩

/-- C14. `SetDirection` has no effect on the grid: for every state and every signal the
map, `maxRowIndex` and `maxColIndex` after the call are those before it. -/
theorem C14_setDirection_keeps_grid (g : Game) (state : ProgramState) :
    (g.SetDirection state).map = g.map ∧
    (g.SetDirection state).maxRowIndex = g.maxRowIndex ∧
    (g.SetDirection state).maxColIndex = g.maxColIndex := by
  cases state <;> exact ⟨rfl, rfl, rfl⟩

/-- C17. `SetDirection` is idempotent: for every state and every signal, applying it
twice leaves exactly the state that applying it once leaves. -/
theorem C17_setDirection_idempotent (g : Game) (state : ProgramState) :
    (g.SetDirection state).SetDirection state = g.SetDirection state := by
  cases state <;> rfl

/-! ## The one-step shift in the specification's words and as a rotation -/

theorem rotLeft1_eq_rotate {α : Type} (l : List α) : rotLeft1 l = l.rotate 1 := by
  cases l with
  | nil => rfl
  | cons a l => rw [rotLeft1, List.rotate_cons_succ, List.rotate_zero]

theorem rotRight1_eq_rotate {α : Type} (l : List α) : rotRight1 l = l.rotate (l.length - 1) := by
  cases hl : l.getLast? with
  | none =>
    have e : l = [] := List.getLast?_eq_none_iff.mp hl
    subst e
    rfl
  | some a =>
    obtain ⟨ys, e⟩ := List.getLast?_eq_some_iff.mp hl
    subst e
    have h1 : rotRight1 (ys ++ [a]) = a :: ys := by
      rw [rotRight1, List.getLast?_concat, List.dropLast_concat]
    have h2 : (ys ++ [a]).length - 1 = ys.length := by
      rw [List.length_append, List.length_singleton, Nat.add_sub_cancel]
    rw [h1, h2, List.rotate_append_length_eq]
    rfl

theorem shiftGrid_eq_rotGrid (d : Direction) (R C : Nat) (m : Grid) (hr : m.length = R)
    (hc : ∀ row ∈ m, row.length = C) : shiftGrid d m = rotGrid d R C m := by
  cases d with
  | Up => exact rotLeft1_eq_rotate m
  | Down =>
    show rotRight1 m = m.rotate (R - 1)
    rw [rotRight1_eq_rotate, hr]
  | Left =>
    show m.map rotLeft1 = m.map (fun row => row.rotate 1)
    exact List.map_congr_left (fun row _ => rotLeft1_eq_rotate row)
  | Right =>
    show m.map rotRight1 = m.map (fun row => row.rotate (C - 1))
    apply List.map_congr_left
    intro row hrow
    rw [rotRight1_eq_rotate, hc row hrow]

theorem rotGrid_dims (d : Direction) (R C : Nat) (m : Grid) (hr : m.length = R)
    (hc : ∀ row ∈ m, row.length = C) :
    (rotGrid d R C m).length = R ∧ ∀ row ∈ rotGrid d R C m, row.length = C := by
  cases d with
  | Up =>
    exact ⟨by rw [rotGrid, List.length_rotate, hr],
      fun row hrow => hc row (List.mem_rotate.mp hrow)⟩
  | Down =>
    exact ⟨by rw [rotGrid, List.length_rotate, hr],
      fun row hrow => hc row (List.mem_rotate.mp hrow)⟩
  | Left =>
    refine ⟨by rw [rotGrid, List.length_map, hr], fun row hrow => ?_⟩
    obtain ⟨row0, h0, e⟩ := List.mem_map.mp hrow
    rw [← e, List.length_rotate]
    exact hc row0 h0
  | Right =>
    refine ⟨by rw [rotGrid, List.length_map, hr], fun row hrow => ?_⟩
    obtain ⟨row0, h0, e⟩ := List.mem_map.mp hrow
    rw [← e, List.length_rotate]
    exact hc row0 h0

/-- One `Update()` on a non-empty `R x C` rectangle, `C ≥ 1`: the state with its map
rotated by one position in the current direction. -/
theorem Update_rotGrid (g : Game) (R C : Nat) (h : g.WF R C) (hC : 1 ≤ C) :
    Game.Update g = some { g with map := rotGrid g.direction R C g.map } := by
  cases hd : g.direction with
  | Up =>
    have key := Update_Up g R C h hd
    rw [hd] at key
    exact key
  | Right =>
    have key := Update_Right g R C h hC hd
    rw [hd] at key
    exact key
  | Down =>
    have key := Update_Down g R C h hd
    rw [hd] at key
    exact key
  | Left =>
    have key := Update_Left g R C h hC hd
    rw [hd] at key
    exact key

theorem Update_shiftGrid (g : Game) (R C : Nat) (h : g.WF R C) (hC : 1 ≤ C) :
    Game.Update g = some { g with map := shiftGrid g.direction g.map } := by
  rw [Update_rotGrid g R C h hC, shiftGrid_eq_rotGrid g.direction R C g.map h.rows h.cols]

theorem WF_shiftGrid (g : Game) (R C : Nat) (h : g.WF R C) (d : Direction) :
    Game.WF { g with map := shiftGrid d g.map } R C := by
  have hdims := rotGrid_dims d R C g.map h.rows h.cols
  rw [shiftGrid_eq_rotGrid d R C g.map h.rows h.cols]
  exact WF_withMap g R C h _ hdims.1 hdims.2

theorem WF_withDirection (g : Game) (R C : Nat) (h : g.WF R C) (d : Direction) :
    Game.WF { g with direction := d } R C :=
  ⟨h.rows, h.cols, h.nonempty, h.maxRow, h.maxCol⟩

/-- Whenever `Update()` returns, the direction and the two index fields are the ones
it was called with. -/
theorem Update_fields (g g1 : Game) (h : Game.Update g = some g1) :
    g1.direction = g.direction ∧ g1.maxRowIndex = g.maxRowIndex ∧
      g1.maxColIndex = g.maxColIndex := by
  rw [Game.Update, Game.UpdateWith] at h
  cases hd : g.direction <;> rw [hd] at h <;> simp only [Option.bind_eq_some] at h
  · obtain ⟨_, _, _, _, _, _, e⟩ := h
    cases e
    exact ⟨rfl, rfl, rfl⟩
  · obtain ⟨_, _, e⟩ := h
    cases e
    exact ⟨rfl, rfl, rfl⟩
  · obtain ⟨_, _, _, _, _, _, e⟩ := h
    cases e
    exact ⟨rfl, rfl, rfl⟩
  · obtain ⟨_, _, e⟩ := h
    cases e
    exact ⟨rfl, rfl, rfl⟩

theorem run_replicate_Update (n : Nat) :
    ∀ g : Game, Game.run (List.replicate n Op.Update) g = Game.UpdateN n g := by
  induction n with
  | zero =>
    intro g
    rfl
  | succ n ih =>
    intro g
    rw [List.replicate_succ, Game.run, Game.UpdateN]
    cases Game.Update g with
    | none => rfl
    | some g1 => rw [Option.some_bind, Option.some_bind, ih g1]

/-- Any sequence of `SetDirection` and `Update()` calls on a non-empty `R x C`
rectangle, `C ≥ 1`, runs to the end and ends on such a rectangle. -/
theorem run_WF (R C : Nat) (hC : 1 ≤ C) :
    ∀ (ops : List Op) (g : Game), g.WF R C → ∃ g1, Game.run ops g = some g1 ∧ g1.WF R C := by
  intro ops
  induction ops with
  | nil =>
    intro g h
    exact ⟨g, rfl, h⟩
  | cons op ops ih =>
    intro g h
    cases op with
    | SetDirection state =>
      exact ih (g.SetDirection state) (WF_SetDirection g R C h state).1
    | Update =>
      obtain ⟨g0, hupd, hwf, _⟩ := Update_keeps g R C h hC
      obtain ⟨g1, hrun, hwf1⟩ := ih g0 hwf
      refine ⟨g1, ?_, hwf1⟩
      rw [Game.run, hupd, Option.some_bind]
      exact hrun

theorem UpdateN_shiftGrid (R C : Nat) (hC : 1 ≤ C) (d : Direction) :
    ∀ (n : Nat) (g : Game), g.WF R C → g.direction = d →
      Game.UpdateN n g = some { g with map := (shiftGrid d)^[n] g.map } :=
  UpdateN_closed (shiftGrid d) d R C
    (fun g h hd => by
      subst hd
      exact Update_shiftGrid g R C h hC)
    (fun g h => WF_shiftGrid g R C h d)

/-! ## C12, C13: the direction in force -/

/-- C12. Direction persistence: whenever `Update()` returns, the direction is the one
it was called with; and on a non-empty `R x C` rectangle, `C ≥ 1`, with direction `d`,
`n` consecutive `Update()` calls return, leave the direction `d` and leave the map that
`n` successive one-step shifts in direction `d` give, for every `n ≥ 0`. -/
theorem C12_direction_persistence (g : Game) :
    (∀ g1, Game.Update g = some g1 → g1.direction = g.direction) ∧
    (∀ R C : Nat, g.WF R C → 1 ≤ C → ∀ n : Nat,
      ∃ g1, Game.UpdateN n g = some g1 ∧ g1.direction = g.direction ∧
        g1.map = (shiftGrid g.direction)^[n] g.map) := by
  refine ⟨fun g1 h => (Update_fields g g1 h).1, ?_⟩
  intro R C h hC n
  exact ⟨_, UpdateN_shiftGrid R C hC g.direction n g h rfl, rfl, rfl⟩

/-- C12 on `["abcd","efgh"]` with direction Left, three calls: `["dabc","hefg"]`. -/
theorem C12_direction_persistence_witness :
    (Game.ofMap Direction.Left abcdGrid).WF 2 4 ∧
    Game.UpdateN 3 (Game.ofMap Direction.Left abcdGrid)
      = some (Game.ofMap Direction.Left [['d', 'a', 'b', 'c'], ['h', 'e', 'f', 'g']]) ∧
    ∃ g1, Game.UpdateN 3 (Game.ofMap Direction.Left abcdGrid) = some g1 ∧
      g1.direction = (Game.ofMap Direction.Left abcdGrid).direction ∧
      g1.map = (shiftGrid (Game.ofMap Direction.Left abcdGrid).direction)^[3]
        (Game.ofMap Direction.Left abcdGrid).map :=
  ⟨⟨by decide, by decide, by decide, by decide, by decide⟩, by decide,
    (C12_direction_persistence (Game.ofMap Direction.Left abcdGrid)).2 2 4
      ⟨by decide, by decide, by decide, by decide, by decide⟩ (by decide) 3⟩

/-- C13. Last direction wins: from every state, `SetDirection(s1)` followed by
`SetDirection(s2)` with a move signal `s2` leaves the state `SetDirection(s2)` alone
leaves; so `SetDirection(Down)`, `SetDirection(Right)` and three `Update()` calls do
what three `Update()` calls after `SetDirection(Right)` do, and on a non-empty `R x C`
rectangle, `C ≥ 1`, they return the starting grid shifted Right three times, no Down
shift applied. -/
theorem C13_last_direction_wins (g : Game) :
    (∀ s1 s2 : ProgramState,
      (s2 = ProgramState.Up ∨ s2 = ProgramState.Down ∨ s2 = ProgramState.Left ∨
        s2 = ProgramState.Right) →
      (g.SetDirection s1).SetDirection s2 = g.SetDirection s2) ∧
    Game.run [Op.SetDirection ProgramState.Down, Op.SetDirection ProgramState.Right,
        Op.Update, Op.Update, Op.Update] g
      = Game.UpdateN 3 (g.SetDirection ProgramState.Right) ∧
    (∀ R C : Nat, g.WF R C → 1 ≤ C →
      ∃ g1, Game.run [Op.SetDirection ProgramState.Down, Op.SetDirection ProgramState.Right,
          Op.Update, Op.Update, Op.Update] g = some g1 ∧
        g1.direction = Direction.Right ∧
        g1.map = shiftGrid Direction.Right
          (shiftGrid Direction.Right (shiftGrid Direction.Right g.map))) := by
  have hrun : Game.run [Op.SetDirection ProgramState.Down,
      Op.SetDirection ProgramState.Right, Op.Update, Op.Update, Op.Update] g
      = Game.UpdateN 3 (g.SetDirection ProgramState.Right) := by
    rw [Game.run, Game.run]
    exact run_replicate_Update 3 _
  refine ⟨?_, hrun, ?_⟩
  · intro s1 s2 hs2
    rcases hs2 with e | e | e | e <;> subst e <;> cases s1 <;> rfl
  · intro R C h hC
    have hwf := (WF_SetDirection g R C h ProgramState.Right).1
    refine ⟨_, hrun.trans (UpdateN_shiftGrid R C hC Direction.Right 3 _ hwf rfl), rfl, rfl⟩

/-- C13 on `["abcd","efgh"]`: the rows stay in place and each is rotated right three
times, `["bcda","fghe"]`. -/
theorem C13_last_direction_wins_witness :
    (Game.ofMap Direction.Up abcdGrid).WF 2 4 ∧
    Game.run [Op.SetDirection ProgramState.Down, Op.SetDirection ProgramState.Right,
        Op.Update, Op.Update, Op.Update] (Game.ofMap Direction.Up abcdGrid)
      = some (Game.ofMap Direction.Right [['b', 'c', 'd', 'a'], ['f', 'g', 'h', 'e']]) ∧
    ∃ g1, Game.run [Op.SetDirection ProgramState.Down, Op.SetDirection ProgramState.Right,
        Op.Update, Op.Update, Op.Update] (Game.ofMap Direction.Up abcdGrid) = some g1 ∧
      g1.direction = Direction.Right ∧
      g1.map = shiftGrid Direction.Right
        (shiftGrid Direction.Right
          (shiftGrid Direction.Right (Game.ofMap Direction.Up abcdGrid).map)) :=
  ⟨⟨by decide, by decide, by decide, by decide, by decide⟩, by decide,
    (C13_last_direction_wins (Game.ofMap Direction.Up abcdGrid)).2.2 2 4
      ⟨by decide, by decide, by decide, by decide, by decide⟩ (by decide)⟩

/-! ## C15, C16: the constructed game -/

/-- C15. The grid built at startup is non-empty and rectangular: the constructor gives
23 rows, every row as long as row `0`, namely 67 characters, `maxRowIndex = 22` and
`maxColIndex = 66`; and every sequence of `SetDirection` and `Update()` calls from there
runs to the end and ends on a 23 x 67 rectangle with the same two stored indices. -/
theorem C15_startup_grid (ops : List Op) :
    Game.ctor.map.length = 23 ∧
    (∀ row ∈ Game.ctor.map, row.length = (Game.ctor.map.headD []).length) ∧
    (∀ row ∈ Game.ctor.map, row.length = 67) ∧
    Game.ctor.maxRowIndex = 22 ∧
    Game.ctor.maxColIndex = 66 ∧
    ∃ g, Game.run ops Game.ctor = some g ∧
      g.map.length = 23 ∧
      (∀ row ∈ g.map, row.length = 67) ∧
      g.maxRowIndex = 22 ∧
      g.maxColIndex = 66 := by
  obtain ⟨g, hrun, hwf⟩ := run_WF 23 67 (by decide) ops Game.ctor WF_ctor
  refine ⟨by decide, by decide, by decide, by decide, by decide, g, hrun, hwf.rows,
    hwf.cols, ?_, ?_⟩
  · rw [hwf.maxRow]
    rfl
  · rw [hwf.maxCol]
    rfl

/-- C16. The default direction is Right: a freshly constructed game has direction
Right, an `Update()` performed on it returns the startup grid shifted Right by one
column (the `%` of row 1, column 2 is found in column 3), and that is what the first
frame does when no key is pressed. -/
theorem C16_default_direction :
    Game.ctor.direction = Direction.Right ∧
    Game.Update Game.ctor
      = some { Game.ctor with map := shiftGrid Direction.Right Game.ctorMap } ∧
    charAt Game.ctorMap 1 2 = some '%' ∧
    charAt Game.ctorMap 1 3 = some ' ' ∧
    charAt (shiftGrid Direction.Right Game.ctorMap) 1 2 = some ' ' ∧
    charAt (shiftGrid Direction.Right Game.ctorMap) 1 3 = some '%' ∧
    Input.handle (-1) = ProgramState.Continue ∧
    ∃ out, mainLoop [-1] Game.ctor startOutput
      = some (LoopState.Running,
          { Game.ctor with map := shiftGrid Direction.Right Game.ctorMap }, out) := by
  have hupd : Game.Update Game.ctor
      = some { Game.ctor with map := shiftGrid Direction.Right Game.ctorMap } :=
    Update_shiftGrid Game.ctor 23 67 WF_ctor (by decide)
  have hkey : Input.handle (-1) = ProgramState.Continue := by decide
  refine ⟨rfl, hupd, by decide, by decide, by decide, by decide, hkey, ?_⟩
  obtain ⟨out, hdraw⟩ := Draw_total startOutput (shiftGrid Direction.Right Game.ctorMap)
  refine ⟨out, ?_⟩
  have hset : Game.ctor.SetDirection ProgramState.Continue = Game.ctor := rfl
  rw [mainLoop, hkey, if_neg (by decide), hset, hupd, Option.some_bind]
  show (Render.Draw startOutput (shiftGrid Direction.Right Game.ctorMap)).bind _ = _
  rw [hdraw, Option.some_bind, mainLoop]

/-! ## C18: the repaint -/

theorem moveCursor_col0 (out : Output) (n : Nat) :
    Console.moveCursor out (n : Int) 0 = out ++ cursorSeq n := by
  have e0 : (toString (0 : Int)).toList = ['0'] := by decide
  have en : toString ((n : Nat) : Int) = Nat.repr n := rfl
  have e1 : "\x1b[".toList = [Char.ofNat 27, '['] := by decide
  have e2 : ";".toList = [';'] := rfl
  have e3 : "H".toList = ['H'] := rfl
  rw [Console.moveCursor, Console.print, cursorSeq, e0, en, e1, e2, e3]
  simp [List.append_assoc]

theorem forUp_draw :
    ∀ (rest pre : Grid) (out : Output),
      forUp (Render.drawBody (pre ++ rest)) rest.length (pre.length : Int) out
        = some (out ++ repaintFrom pre.length rest) := by
  intro rest
  induction rest with
  | nil =>
    intro pre out
    rw [List.length_nil, forUp, repaintFrom, List.append_nil]
  | cons row rest ih =>
    intro pre out
    have hat : vecAt (pre ++ row :: rest) (pre.length : Int) = some row := by
      rw [vecAt_natCast, List.getElem?_append_right (le_refl _), Nat.sub_self,
        List.getElem?_cons_zero]
    have e1 : pre ++ row :: rest = (pre ++ [row]) ++ rest := by
      rw [List.append_assoc]
      rfl
    have e2 : (pre.length : Int) + 1 = ((pre ++ [row]).length : Int) := by
      rw [List.length_append, List.length_singleton]
      push_cast
      ring
    have e3 : (pre ++ [row]).length = pre.length + 1 := by
      rw [List.length_append, List.length_singleton]
    rw [List.length_cons, forUp, Render.drawBody, hat, Option.some_bind, Option.some_bind,
      moveCursor_col0, Console.print, e1, e2, ih (pre ++ [row]), e3, repaintFrom]
    simp [List.append_assoc]

/-- C18. Full repaint in row order: for every grid and whatever was written before,
`Draw` returns and appends to the output, for `r = 0, 1, ..., R-1` in that order, the
cursor-positioning sequence for row `r` and column `0` (ESC `[` r `;` `0` `H`)
immediately followed by the unchanged text of row `r`, and nothing else. -/
theorem C18_draw_full_repaint (out : Output) (map : Grid) :
    Render.Draw out map = some (out ++ repaintFrom 0 map) ∧
    repaintFrom 0 map
      = ((List.range map.length).zip map).flatMap (fun p => cursorSeq p.1 ++ p.2) := by
  constructor
  · exact forUp_draw map [] out
  · have key : ∀ (rows : Grid) (r : Nat), repaintFrom r rows
        = ((List.range' r rows.length).zip rows).flatMap (fun p => cursorSeq p.1 ++ p.2) := by
      intro rows
      induction rows with
      | nil =>
        intro r
        rfl
      | cons row rest ih =>
        intro r
        rw [repaintFrom, ih (r + 1), List.length_cons, List.range'_succ, List.zip_cons_cons,
          List.flatMap_cons]
    rw [key map 0, List.range_eq_range']

/-- The repaint of `["abc","def"]` on an empty output. -/
theorem Draw_abcdef :
    Render.Draw [] abcdefGrid = some "\x1b[0;0Habc\x1b[1;0Hdef".toList := by
  decide

/-! ## C19, C20: two updates in different directions -/

theorem UpdateIn_rotGrid (g : Game) (R C : Nat) (h : g.WF R C) (hC : 1 ≤ C) (d : Direction) :
    Game.UpdateIn d g = some { g with direction := d, map := rotGrid d R C g.map } :=
  Update_rotGrid { g with direction := d } R C (WF_withDirection g R C h d) hC

theorem WF_rotGrid (g : Game) (R C : Nat) (h : g.WF R C) (d : Direction) :
    Game.WF { g with direction := d, map := rotGrid d R C g.map } R C :=
  ⟨(rotGrid_dims d R C g.map h.rows h.cols).1, (rotGrid_dims d R C g.map h.rows h.cols).2,
    h.nonempty, h.maxRow, h.maxCol⟩

/-- Two updates, the first in direction `d1`, the second in direction `d2`. -/
theorem UpdateIn_two (g : Game) (R C : Nat) (h : g.WF R C) (hC : 1 ≤ C) (d1 d2 : Direction) :
    ∃ g1 g2, Game.UpdateIn d1 g = some g1 ∧ Game.UpdateIn d2 g1 = some g2 ∧
      g2.map = rotGrid d2 R C (rotGrid d1 R C g.map) :=
  ⟨_, _, UpdateIn_rotGrid g R C h hC d1,
    UpdateIn_rotGrid _ R C (WF_rotGrid g R C h d1) hC d2, rfl⟩

theorem rotate_rows_back (m : Grid) (R a b : Nat) (hr : m.length = R) (hab : a + b = R) :
    (m.rotate a).rotate b = m := by
  rw [List.rotate_rotate, hab, ← hr, List.rotate_length]

theorem rotate_cols_back (m : Grid) (C a b : Nat) (hc : ∀ row ∈ m, row.length = C)
    (hab : a + b = C) :
    (m.map (fun row => row.rotate a)).map (fun row => row.rotate b) = m := by
  have e : (m.map (fun row => row.rotate a)).map (fun row => row.rotate b) = m.map id := by
    rw [List.map_map]
    apply List.map_congr_left
    intro row hrow
    show (row.rotate a).rotate b = row
    rw [List.rotate_rotate, hab, ← hc row hrow, List.rotate_length]
  rw [e, List.map_id]

/-- C19. Opposite directions are inverses: on a non-empty `R x C` rectangle, `C ≥ 1`,
an `Update()` in direction Up followed by one in direction Down returns, and the grid
is the starting grid; and so for Down then Up, Left then Right, Right then Left. -/
theorem C19_opposite_directions (g : Game) (R C : Nat) (h : g.WF R C) (hC : 1 ≤ C) :
    (∃ g1 g2, Game.UpdateIn Direction.Up g = some g1 ∧
      Game.UpdateIn Direction.Down g1 = some g2 ∧ g2.map = g.map) ∧
    (∃ g1 g2, Game.UpdateIn Direction.Down g = some g1 ∧
      Game.UpdateIn Direction.Up g1 = some g2 ∧ g2.map = g.map) ∧
    (∃ g1 g2, Game.UpdateIn Direction.Left g = some g1 ∧
      Game.UpdateIn Direction.Right g1 = some g2 ∧ g2.map = g.map) ∧
    (∃ g1 g2, Game.UpdateIn Direction.Right g = some g1 ∧
      Game.UpdateIn Direction.Left g1 = some g2 ∧ g2.map = g.map) := by
  have hR := h.nonempty
  refine ⟨?_, ?_, ?_, ?_⟩
  · obtain ⟨g1, g2, h1, h2, hm⟩ := UpdateIn_two g R C h hC Direction.Up Direction.Down
    refine ⟨g1, g2, h1, h2, hm.trans ?_⟩
    exact rotate_rows_back g.map R 1 (R - 1) h.rows (by omega)
  · obtain ⟨g1, g2, h1, h2, hm⟩ := UpdateIn_two g R C h hC Direction.Down Direction.Up
    refine ⟨g1, g2, h1, h2, hm.trans ?_⟩
    exact rotate_rows_back g.map R (R - 1) 1 h.rows (by omega)
  · obtain ⟨g1, g2, h1, h2, hm⟩ := UpdateIn_two g R C h hC Direction.Left Direction.Right
    refine ⟨g1, g2, h1, h2, hm.trans ?_⟩
    exact rotate_cols_back g.map C 1 (C - 1) h.cols (by omega)
  · obtain ⟨g1, g2, h1, h2, hm⟩ := UpdateIn_two g R C h hC Direction.Right Direction.Left
    refine ⟨g1, g2, h1, h2, hm.trans ?_⟩
    exact rotate_cols_back g.map C (C - 1) 1 h.cols (by omega)

/-- C19 on `["abcd","efgh"]`: Up gives `["efgh","abcd"]` and Down brings the start
back; Left gives `["bcda","fghe"]` and Right brings the start back. -/
theorem C19_opposite_directions_witness :
    (Game.ofMap Direction.Right abcdGrid).WF 2 4 ∧
    Game.UpdateIn Direction.Up (Game.ofMap Direction.Right abcdGrid)
      = some (Game.ofMap Direction.Up [['e', 'f', 'g', 'h'], ['a', 'b', 'c', 'd']]) ∧
    Game.UpdateIn Direction.Down
        (Game.ofMap Direction.Up [['e', 'f', 'g', 'h'], ['a', 'b', 'c', 'd']])
      = some (Game.ofMap Direction.Down abcdGrid) ∧
    Game.UpdateIn Direction.Left (Game.ofMap Direction.Right abcdGrid)
      = some (Game.ofMap Direction.Left [['b', 'c', 'd', 'a'], ['f', 'g', 'h', 'e']]) ∧
    Game.UpdateIn Direction.Right
        (Game.ofMap Direction.Left [['b', 'c', 'd', 'a'], ['f', 'g', 'h', 'e']])
      = some (Game.ofMap Direction.Right abcdGrid) ∧
    ∃ g1 g2, Game.UpdateIn Direction.Up (Game.ofMap Direction.Right abcdGrid) = some g1 ∧
      Game.UpdateIn Direction.Down g1 = some g2 ∧
      g2.map = (Game.ofMap Direction.Right abcdGrid).map :=
  ⟨⟨by decide, by decide, by decide, by decide, by decide⟩, by decide, by decide, by decide,
    by decide,
    (C19_opposite_directions (Game.ofMap Direction.Right abcdGrid) 2 4
      ⟨by decide, by decide, by decide, by decide, by decide⟩ (by decide)).1⟩

theorem rotGrid_commute (R C : Nat) (m : Grid) (v hz : Direction)
    (hv : v = Direction.Up ∨ v = Direction.Down)
    (hh : hz = Direction.Left ∨ hz = Direction.Right) :
    rotGrid hz R C (rotGrid v R C m) = rotGrid v R C (rotGrid hz R C m) := by
  rcases hv with e1 | e1 <;> rcases hh with e2 | e2 <;> subst e1 <;> subst e2 <;>
    exact List.map_rotate _ m _

/-- C20. Horizontal and vertical shifts commute: on a non-empty `R x C` rectangle,
`C ≥ 1`, for `v` one of Up, Down and `hz` one of Left, Right, an `Update()` in direction
`v` followed by one in direction `hz`, and an `Update()` in direction `hz` followed by
one in direction `v`, both return and give the same grid. -/
theorem C20_shifts_commute (g : Game) (R C : Nat) (h : g.WF R C) (hC : 1 ≤ C)
    (v hz : Direction) (hv : v = Direction.Up ∨ v = Direction.Down)
    (hh : hz = Direction.Left ∨ hz = Direction.Right) :
    ∃ a b c d, Game.UpdateIn v g = some a ∧ Game.UpdateIn hz a = some b ∧
      Game.UpdateIn hz g = some c ∧ Game.UpdateIn v c = some d ∧ b.map = d.map := by
  obtain ⟨a, b, h1, h2, hb⟩ := UpdateIn_two g R C h hC v hz
  obtain ⟨c, d, h3, h4, hd⟩ := UpdateIn_two g R C h hC hz v
  exact ⟨a, b, c, d, h1, h2, h3, h4, by rw [hb, hd, rotGrid_commute R C g.map v hz hv hh]⟩

/-- C20 on `["abcd","efgh"]` with Down and Right: both orders give `["hefg","dabc"]`. -/
theorem C20_shifts_commute_witness :
    (Game.ofMap Direction.Up abcdGrid).WF 2 4 ∧
    (Game.UpdateIn Direction.Down (Game.ofMap Direction.Up abcdGrid)).bind
        (Game.UpdateIn Direction.Right)
      = some (Game.ofMap Direction.Right [['h', 'e', 'f', 'g'], ['d', 'a', 'b', 'c']]) ∧
    (Game.UpdateIn Direction.Right (Game.ofMap Direction.Up abcdGrid)).bind
        (Game.UpdateIn Direction.Down)
      = some (Game.ofMap Direction.Down [['h', 'e', 'f', 'g'], ['d', 'a', 'b', 'c']]) ∧
    ∃ a b c d, Game.UpdateIn Direction.Down (Game.ofMap Direction.Up abcdGrid) = some a ∧
      Game.UpdateIn Direction.Right a = some b ∧
      Game.UpdateIn Direction.Right (Game.ofMap Direction.Up abcdGrid) = some c ∧
      Game.UpdateIn Direction.Down c = some d ∧ b.map = d.map :=
  ⟨⟨by decide, by decide, by decide, by decide, by decide⟩, by decide, by decide,
    C20_shifts_commute (Game.ofMap Direction.Up abcdGrid) 2 4
      ⟨by decide, by decide, by decide, by decide, by decide⟩ (by decide)
      Direction.Down Direction.Right (Or.inr rfl) (Or.inr rfl)⟩

end TextScroll
